import Mathlib

/-!
Verification of the client-side media pipeline of `moonlight-web-stream`.

This file gives a shallow embedding, in Lean 4, of the parts of the
TypeScript source that the checked claims are about:

* the Annex-B → AVCC/HVCC stream translator
  (`web/stream/video/annex_b_translator.ts`),
* the `ByteBuffer` positional writer (`web/stream/buffer.ts`),
* the ISO-BMFF box emitter and the `MediaSourceDecoder` state machine
  (`web/stream/video/media_source.ts`),
* the hardware `VideoDecoderPipe` IDR-request logic
  (`web/stream/video/video_decoder_pipe.ts`),
* the pipeline preference table and its canvas-renderer pruning
  (`web/stream/video/build.ts`).

Conventions of the embedding:

* Byte strings are `List Nat`.  In the source they are `Uint8Array`s, so
  every entry is `< 256` by construction; copies of whole arrays are
  modelled as identity copies, while scalar stores into a `Uint8Array`
  are modelled with the `% 256` truncation the engine performs.
* JavaScript exceptions (`throw`) are modelled with `Option`: a function
  that can throw returns `none` on the throwing path.  Where the thrown
  path leaves earlier mutations of the object behind (the translator's
  `onChunkUnit`), the state at the throw point is carried along.
* Growable output buffers (`currentFrame` with its doubling
  `checkFrameBufferSize`) are modelled as plain lists: the growth logic
  only manages capacity and never changes the byte sequence that
  `currentFrame.slice(0, currentFrameSize)` returns.
* JavaScript `number` timestamp arithmetic of the media-source decoder is
  modelled over `ℚ`; `1_000_000 / fps` is the exact rational.
-/

set_option linter.unreachableTactic false
set_option linter.unusedTactic false
set_option maxRecDepth 8192

namespace MoonlightStream

abbrev Bytes := List Nat

/-- Big-endian bytes of a 32-bit value as `DataView.setUint32` stores them
(the value is truncated to 32 bits first). -/
def be32 (n : Nat) : Bytes :=
  [n / 2 ^ 24 % 256, n / 2 ^ 16 % 256, n / 2 ^ 8 % 256, n % 256]

/-- Little-endian bytes of a 32-bit value as `DataView.setUint32 (littleEndian)`
stores them. -/
def le32 (n : Nat) : Bytes :=
  [n % 256, n / 2 ^ 8 % 256, n / 2 ^ 16 % 256, n / 2 ^ 24 % 256]

/-- Big-endian bytes of a 16-bit quantity; used to state what the AVCC
record's length fields contain. -/
def u16be (n : Nat) : Bytes := [n / 256 % 256, n % 256]

/-- `startsWith(buffer, position, check)` from `annex_b_translator.ts`:
compares `check.length` bytes at `position`.  An out-of-range access in the
source reads `undefined`, which is `!=` every byte of the start codes, so the
function returns `false` whenever the window overruns the buffer. -/
def jsStartsWith (buffer : Bytes) (position : Nat) (check : Bytes) : Bool :=
  decide (position + check.length ≤ buffer.length) &&
    (List.range check.length).all fun i =>
      buffer.getD (position + i) 0 == check.getD i 0

def START_CODE_SHORT : Bytes := [0x00, 0x00, 0x01]
def START_CODE_LONG : Bytes := [0x00, 0x00, 0x00, 0x01]

/-- `VideoDecoderConfig` as the translator uses it: the codec tag and the
out-of-band `description` record. -/
structure VideoDecoderConfig where
  codec : String
  description : Option Bytes
  deriving Repr, DecidableEq

inductive UnitType where
  | key
  | delta
  deriving Repr, DecidableEq

/-- `VideoDecodeUnit`: an encoded Annex-B unit with its metadata.  Timestamps
are JavaScript numbers; the claims about them are stated over `ℚ`. -/
structure VideoDecodeUnit where
  type : UnitType
  data : Bytes
  timestampMicroseconds : ℚ
  durationMicroseconds : ℚ

/-- The codec-specific callbacks of the abstract `CodecStreamTranslator`.
`onChunkUnit` returns the updated state and `some include`, or `none`
(paired with the state at the throw point) when the source would throw. -/
structure TranslatorOps (σ : Type) where
  startProcessChunk : σ → UnitType → Bool
  onChunkUnit : σ → Bytes → σ × Option Bool
  endChunk : σ → σ × Bool
  getConfig : σ → VideoDecoderConfig
  setBaseConfig : σ → VideoDecoderConfig → σ

/-- `handleStartCode` of `CodecStreamTranslator.submitDecodeUnit`: slice the
data between `unitBegin` and `pos`, classify it, and append
`uint32-BE(length) ++ slice` to the current frame when it is to be included.
`none` models the classifier throwing. -/
def handleStartCode {σ : Type} (ops : TranslatorOps σ) (data : Bytes)
    (unitBegin pos : Nat) (st : σ) (frame : Bytes) : σ × Option Bytes :=
  let slice := (data.drop unitBegin).take (pos - unitBegin)
  match ops.onChunkUnit st slice with
  | (st', none) => (st', none)
  | (st', some incl) =>
      if incl then (st', some (frame ++ be32 slice.length ++ slice))
      else (st', some frame)

/-- The scanning loop of `CodecStreamTranslator.submitDecodeUnit`: walk the
data byte by byte, treating every occurrence of `00 00 01` / `00 00 00 01`
as a NAL boundary (the 4-byte code is tried first); the slice before each
boundary — except a boundary at offset 0 — and the final slice are passed to
`handleStartCode`.  The loop is written with an explicit iteration budget
(each iteration advances `pos` by at least one byte, so
`data.length + 1 - pos` iterations always suffice and the budget is never
exhausted early); this keeps the recursion structural. -/
def scanGo {σ : Type} (ops : TranslatorOps σ) (data : Bytes) :
    Nat → σ → Bytes → Nat → Nat → σ × Option Bytes
  | 0, st, frame, ub, pos => handleStartCode ops data ub pos st frame
  | fuel + 1, st, frame, ub, pos =>
    if pos < data.length then
      if jsStartsWith data pos START_CODE_LONG then
        match (if pos ≠ 0 then handleStartCode ops data ub pos st frame
               else (st, some frame)) with
        | (st', none) => (st', none)
        | (st', some frame') => scanGo ops data fuel st' frame' (pos + 4) (pos + 4)
      else if jsStartsWith data pos START_CODE_SHORT then
        match (if pos ≠ 0 then handleStartCode ops data ub pos st frame
               else (st, some frame)) with
        | (st', none) => (st', none)
        | (st', some frame') => scanGo ops data fuel st' frame' (pos + 3) (pos + 3)
      else
        scanGo ops data fuel st frame ub (pos + 1)
    else handleStartCode ops data ub pos st frame

/-- The scanning loop entered at `unitBegin`/`pos`. -/
def scanLoop {σ : Type} (ops : TranslatorOps σ) (data : Bytes) (st : σ)
    (frame : Bytes) (unitBegin pos : Nat) : σ × Option Bytes :=
  scanGo ops data (data.length + 1 - pos) st frame unitBegin pos

/-- Result record of `submitDecodeUnit` (the `error: true` branch of the
source is unreachable — `decoderConfig` is initialised non-null — and is not
modelled). -/
structure SubmitResult where
  configure : Option VideoDecoderConfig
  chunk : Option Bytes
  deriving Repr, DecidableEq

/-- `CodecStreamTranslator.submitDecodeUnit`.  Returns the state the
translator object holds afterwards and `some result`, or `none` when the
source would propagate an exception out of the call. -/
def submitDecodeUnit {σ : Type} (ops : TranslatorOps σ) (st : σ)
    (unit : VideoDecodeUnit) : σ × Option SubmitResult :=
  if ops.startProcessChunk st unit.type then
    match scanLoop ops unit.data st [] 0 0 with
    | (st', none) => (st', none)
    | (st', some frame) =>
        let (st'', reconfigure) := ops.endChunk st'
        (st'', some { configure := if reconfigure then some (ops.getConfig st'') else none,
                      chunk := some frame })
  else (st, some { configure := none, chunk := none })

/-! ### H.264 specifics -/

/-- `h264NalType`. -/
def h264NalType (header : Nat) : Nat := header % 32

/-- `numToHex` from `util.ts`: `n.toString(16)`, left-padded to two digits
when it is a single digit. -/
def numToHex (n : Nat) : String :=
  let hex := (Nat.toDigits 16 n).asString
  if hex.length == 1 then "0" ++ hex else hex

structure H264Sps where
  profileIdc : Nat
  constraintFlags : Nat
  levelIdc : Nat
  avc1 : String
  deriving Repr, DecidableEq

/-- `h264ParseSps`: reads the NAL header byte and the three following bytes
from the byte buffer wrapped around the SPS.  `none` models the two throwing
paths (a read past the buffer's limit, and a non-SPS NAL type). -/
def h264ParseSps (sps : Bytes) : Option H264Sps :=
  match sps with
  | nalHeader :: profileIdc :: constraintFlags :: levelIdc :: _ =>
      if h264NalType nalHeader = 7 then
        some { profileIdc, constraintFlags, levelIdc,
               avc1 := "avc1." ++ numToHex profileIdc ++ numToHex constraintFlags
                 ++ numToHex levelIdc }
      else none
  | _ => none

/-- `h264MakeAvcC`: the AVCC record laid out byte by byte.  `sps.getD k 0`
models `sps[k]` being `undefined` (stored as 0) when the SPS is shorter than
four bytes; the two length fields are stored through `Uint8Array` truncation. -/
def h264MakeAvcC (sps pps : Bytes) : Bytes :=
  [0x01, sps.getD 1 0, sps.getD 2 0, sps.getD 3 0, 0xFF,
   0xE1, sps.length / 256 % 256, sps.length % 256] ++ sps ++
  [0x01, pps.length / 256 % 256, pps.length % 256] ++ pps

/-- The mutable fields of `H264StreamVideoTranslator` (with the
`decoderConfig` the abstract base class holds). -/
structure H264TState where
  codec : String
  description : Option Bytes
  hasDescription : Bool
  sps : Option Bytes
  pps : Option Bytes
  deriving Repr, DecidableEq

/-- A fresh `H264StreamVideoTranslator` (its `decoderConfig` starts as
`{codec: "undefined"}`). -/
def h264Init : H264TState :=
  { codec := "undefined", description := none, hasDescription := false,
    sps := none, pps := none }

/-- `H264StreamVideoTranslator.onChunkUnit`.  A type-7 slice is stored as the
pending SPS and then parsed; the parse throws (after the `sps` assignment)
when the slice is shorter than four bytes. -/
def h264OnChunkUnit (st : H264TState) (slice : Bytes) : H264TState × Option Bool :=
  let nalType := h264NalType (slice.getD 0 0)
  if nalType = 7 then
    let st₁ := { st with sps := some slice }
    match h264ParseSps slice with
    | none => (st₁, none)
    | some parsed => ({ st₁ with codec := parsed.avc1 }, some false)
  else if nalType = 8 then
    ({ st with pps := some slice }, some false)
  else (st, some true)

/-- `H264StreamVideoTranslator.endChunk`. -/
def h264EndChunk (st : H264TState) : H264TState × Bool :=
  match st.sps, st.pps with
  | some sps, some pps =>
      ({ st with description := some (h264MakeAvcC sps pps),
                 sps := none, pps := none, hasDescription := true }, true)
  | _, _ => (st, false)

def h264Ops : TranslatorOps H264TState where
  startProcessChunk st ty := ty == UnitType.key || st.hasDescription
  onChunkUnit := h264OnChunkUnit
  endChunk := h264EndChunk
  getConfig st := { codec := st.codec, description := st.description }
  setBaseConfig st c := { st with codec := c.codec, description := c.description }

/-- `H264StreamVideoTranslator.submitDecodeUnit`. -/
def h264Submit (st : H264TState) (unit : VideoDecodeUnit) :
    H264TState × Option SubmitResult :=
  submitDecodeUnit h264Ops st unit

/-! ### H.265 specifics -/

/-- `h265NalType`. -/
def h265NalType (header : Nat) : Nat := header / 2 % 64

/-- `h265MakeHvcC`: the minimal HVCC record with its three parameter-set
arrays. -/
def h265MakeHvcC (vps sps pps : Bytes) : Bytes :=
  [1, sps.getD 1 0 / 2 % 64, 0, 0, 0, 0,
   0, 0, 0, 0, 0, 0,
   sps.getD 12 0,
   0xF0, 0x00, 0xFC, 0xFD, 0xF8, 0xF8, 0x00, 0x00, 0x0F, 3,
   0x20, 0, 1, vps.length / 256 % 256, vps.length % 256] ++ vps ++
  [0x21, 0, 1, sps.length / 256 % 256, sps.length % 256] ++ sps ++
  [0x22, 0, 1, pps.length / 256 % 256, pps.length % 256] ++ pps

structure H265TState where
  codec : String
  description : Option Bytes
  hasDescription : Bool
  vps : Option Bytes
  sps : Option Bytes
  pps : Option Bytes
  deriving Repr, DecidableEq

def h265Init : H265TState :=
  { codec := "undefined", description := none, hasDescription := false,
    vps := none, sps := none, pps := none }

/-- `H265StreamVideoTranslator.onChunkUnit` (never throws). -/
def h265OnChunkUnit (st : H265TState) (slice : Bytes) : H265TState × Option Bool :=
  let nalType := h265NalType (slice.getD 0 0)
  if nalType = 32 then ({ st with vps := some slice }, some false)
  else if nalType = 33 then ({ st with sps := some slice }, some false)
  else if nalType = 34 then ({ st with pps := some slice }, some false)
  else (st, some true)

/-- `H265StreamVideoTranslator.endChunk`. -/
def h265EndChunk (st : H265TState) : H265TState × Bool :=
  match st.vps, st.sps, st.pps with
  | some vps, some sps, some pps =>
      ({ st with description := some (h265MakeHvcC vps sps pps),
                 vps := none, sps := none, pps := none, hasDescription := true }, true)
  | _, _, _ => (st, false)

def h265Ops : TranslatorOps H265TState where
  startProcessChunk st ty := ty == UnitType.key || st.hasDescription
  onChunkUnit := h265OnChunkUnit
  endChunk := h265EndChunk
  getConfig st := { codec := st.codec, description := st.description }
  setBaseConfig st c := { st with codec := c.codec, description := c.description }

/-- `H265StreamVideoTranslator.submitDecodeUnit`. -/
def h265Submit (st : H265TState) (unit : VideoDecodeUnit) :
    H265TState × Option SubmitResult :=
  submitDecodeUnit h265Ops st unit

end MoonlightStream

namespace MoonlightStream

/-! ## Lemmas about the boundary scanner -/

/-- A start code (of either length) begins at `p`. -/
def scAt (data : Bytes) (p : Nat) : Bool :=
  jsStartsWith data p START_CODE_LONG || jsStartsWith data p START_CODE_SHORT

theorem jsStartsWith_of_append (pre c rest : Bytes) :
    jsStartsWith (pre ++ (c ++ rest)) pre.length c = true := by
  unfold jsStartsWith
  rw [Bool.and_eq_true, decide_eq_true_iff, List.all_eq_true]
  constructor
  · simp only [List.length_append]
    omega
  · intro i hi
    rw [List.mem_range] at hi
    rw [beq_iff_eq, List.getD_append_right _ _ _ _ (by omega),
      Nat.add_sub_cancel_left, List.getD_append _ _ _ _ hi]

theorem jsStartsWith_false_of_mismatch (data : Bytes) (p : Nat) (check : Bytes)
    (i : Nat) (hi : i < check.length)
    (hne : data.getD (p + i) 0 ≠ check.getD i 0) :
    jsStartsWith data p check = false := by
  unfold jsStartsWith
  rw [Bool.and_eq_false_iff]
  right
  rw [← Bool.not_eq_true, List.all_eq_true]
  intro hall
  exact hne (by simpa using hall i (List.mem_range.mpr hi))

theorem slice_of_append (pre body rest : Bytes) :
    ((pre ++ (body ++ rest)).drop pre.length).take body.length = body := by
  rw [List.drop_left, List.take_left]

/-- For any fuel, a position at or past the end runs the final
`handleStartCode`. -/
theorem scanGo_stop {σ : Type} (ops : TranslatorOps σ) (data : Bytes)
    (fuel : Nat) (st : σ) (frame : Bytes) (ub pos : Nat) (h : data.length ≤ pos) :
    scanGo ops data fuel st frame ub pos = handleStartCode ops data ub pos st frame := by
  cases fuel with
  | zero => rfl
  | succ n =>
      simp only [scanGo]
      rw [if_neg (by omega)]

/-- Any sufficient fuel computes the loop. -/
theorem scanGo_eq_scanLoop {σ : Type} (ops : TranslatorOps σ) (data : Bytes) :
    ∀ (fuel : Nat) (st : σ) (frame : Bytes) (ub pos : Nat),
      data.length + 1 ≤ pos + fuel →
      scanGo ops data fuel st frame ub pos = scanLoop ops data st frame ub pos := by
  intro fuel
  induction fuel using Nat.strong_induction_on with
  | _ fuel ih =>
    intro st frame ub pos hf
    match fuel, hf with
    | 0, hf =>
        rw [scanGo_stop ops data 0 st frame ub pos (by omega)]
        unfold scanLoop
        rw [scanGo_stop ops data _ st frame ub pos (by omega)]
    | (n + 1), hf =>
        by_cases h : pos < data.length
        case neg =>
            rw [scanGo_stop ops data _ st frame ub pos (by omega)]
            unfold scanLoop
            rw [scanGo_stop ops data _ st frame ub pos (by omega)]
        case pos =>
            have hwrap : data.length + 1 - pos = (data.length - pos) + 1 := by omega
            conv_rhs => rw [scanLoop, hwrap]
            simp only [scanGo]
            rw [if_pos h, if_pos h]
            by_cases hl : jsStartsWith data pos START_CODE_LONG
            · rw [if_pos hl, if_pos hl]
              rcases hif : (if pos ≠ 0 then handleStartCode ops data ub pos st frame
                  else (st, some frame)) with ⟨st', _ | frame'⟩
              · rfl
              · show scanGo ops data n st' frame' (pos + 4) (pos + 4)
                  = scanGo ops data (data.length - pos) st' frame' (pos + 4) (pos + 4)
                rw [ih n (by omega) st' frame' (pos + 4) (pos + 4) (by omega),
                  ih (data.length - pos) (by omega) st' frame' (pos + 4) (pos + 4) (by omega)]
            · rw [if_neg hl, if_neg hl]
              by_cases hsh : jsStartsWith data pos START_CODE_SHORT
              · rw [if_pos hsh, if_pos hsh]
                rcases hif : (if pos ≠ 0 then handleStartCode ops data ub pos st frame
                    else (st, some frame)) with ⟨st', _ | frame'⟩
                · rfl
                · show scanGo ops data n st' frame' (pos + 3) (pos + 3)
                    = scanGo ops data (data.length - pos) st' frame' (pos + 3) (pos + 3)
                  rw [ih n (by omega) st' frame' (pos + 3) (pos + 3) (by omega),
                    ih (data.length - pos) (by omega) st' frame' (pos + 3) (pos + 3) (by omega)]
              · rw [if_neg hsh, if_neg hsh]
                rw [ih n (by omega) st frame ub (pos + 1) (by omega),
                  ih (data.length - pos) (by omega) st frame ub (pos + 1) (by omega)]

/-- Unfolding: past the end of the data the loop runs the final
`handleStartCode`. -/
theorem scanLoop_stop {σ : Type} (ops : TranslatorOps σ) (data : Bytes) (st : σ)
    (frame : Bytes) (ub pos : Nat) (h : data.length ≤ pos) :
    scanLoop ops data st frame ub pos = handleStartCode ops data ub pos st frame := by
  unfold scanLoop
  exact scanGo_stop ops data _ st frame ub pos h

/-- Unfolding: no start code at `pos` advances the scan by one byte. -/
theorem scanLoop_advance {σ : Type} (ops : TranslatorOps σ) (data : Bytes) (st : σ)
    (frame : Bytes) (ub pos : Nat) (h : pos < data.length)
    (hno : scAt data pos = false) :
    scanLoop ops data st frame ub pos = scanLoop ops data st frame ub (pos + 1) := by
  rw [scAt, Bool.or_eq_false_iff] at hno
  conv_lhs => rw [scanLoop, show data.length + 1 - pos = (data.length - pos) + 1 by omega]
  simp only [scanGo]
  rw [if_pos h, if_neg (by simp [hno.1]), if_neg (by simp [hno.2])]
  exact scanGo_eq_scanLoop ops data _ st frame ub (pos + 1) (by omega)

/-- A region free of start codes is scanned without effect. -/
theorem scanLoop_skip {σ : Type} (ops : TranslatorOps σ) (data : Bytes) (st : σ)
    (frame : Bytes) (ub pos e : Nat) (hpe : pos ≤ e) (he : e ≤ data.length)
    (hall : ∀ q, pos ≤ q → q < e → scAt data q = false) :
    scanLoop ops data st frame ub pos = scanLoop ops data st frame ub e := by
  obtain ⟨n, hn⟩ : ∃ n, e - pos = n := ⟨_, rfl⟩
  induction n generalizing pos with
  | zero => obtain rfl : pos = e := by omega
            rfl
  | succ n ih =>
      rw [scanLoop_advance ops data st frame ub pos (by omega)
        (hall pos le_rfl (by omega))]
      exact ih (pos + 1) (by omega) (fun q h1 h2 => hall q (by omega) h2) (by omega)

/-- Unfolding: a long start code at `pos ≠ 0` emits the pending slice and
jumps over the code. -/
theorem scanLoop_long {σ : Type} (ops : TranslatorOps σ) (data : Bytes) (st : σ)
    (frame : Bytes) (ub pos : Nat) (h : pos < data.length)
    (hl : jsStartsWith data pos START_CODE_LONG = true) (hp : pos ≠ 0) :
    scanLoop ops data st frame ub pos =
      match handleStartCode ops data ub pos st frame with
      | (st', none) => (st', none)
      | (st', some frame') => scanLoop ops data st' frame' (pos + 4) (pos + 4) := by
  conv_lhs => rw [scanLoop, show data.length + 1 - pos = (data.length - pos) + 1 by omega]
  simp only [scanGo]
  rw [if_pos h, if_pos hl, if_pos hp]
  rcases hif : handleStartCode ops data ub pos st frame with ⟨st', _ | frame'⟩
  · rfl
  · exact scanGo_eq_scanLoop ops data _ st' frame' (pos + 4) (pos + 4) (by omega)

/-- Unfolding: a short start code at `pos ≠ 0` (with no long code there)
emits the pending slice and jumps over the code. -/
theorem scanLoop_short {σ : Type} (ops : TranslatorOps σ) (data : Bytes) (st : σ)
    (frame : Bytes) (ub pos : Nat) (h : pos < data.length)
    (hl : jsStartsWith data pos START_CODE_LONG = false)
    (hs : jsStartsWith data pos START_CODE_SHORT = true) (hp : pos ≠ 0) :
    scanLoop ops data st frame ub pos =
      match handleStartCode ops data ub pos st frame with
      | (st', none) => (st', none)
      | (st', some frame') => scanLoop ops data st' frame' (pos + 3) (pos + 3) := by
  conv_lhs => rw [scanLoop, show data.length + 1 - pos = (data.length - pos) + 1 by omega]
  simp only [scanGo]
  rw [if_pos h, if_neg (by simp [hl]), if_pos hs, if_pos hp]
  rcases hif : handleStartCode ops data ub pos st frame with ⟨st', _ | frame'⟩
  · rfl
  · exact scanGo_eq_scanLoop ops data _ st' frame' (pos + 3) (pos + 3) (by omega)

/-- Unfolding: a long start code at offset 0 is skipped without emitting a
slice (no spurious empty leading slice). -/
theorem scanLoop_zero_long {σ : Type} (ops : TranslatorOps σ) (data : Bytes) (st : σ)
    (frame : Bytes) (ub : Nat) (h : 0 < data.length)
    (hl : jsStartsWith data 0 START_CODE_LONG = true) :
    scanLoop ops data st frame ub 0 = scanLoop ops data st frame 4 4 := by
  conv_lhs => rw [scanLoop, show data.length + 1 - 0 = (data.length - 0) + 1 by omega]
  simp only [scanGo]
  rw [if_pos (by omega), if_pos hl, if_neg (by omega)]
  exact scanGo_eq_scanLoop ops data _ st frame 4 4 (by omega)

/-- Unfolding: a short start code at offset 0 is skipped without emitting a
slice. -/
theorem scanLoop_zero_short {σ : Type} (ops : TranslatorOps σ) (data : Bytes) (st : σ)
    (frame : Bytes) (ub : Nat) (h : 0 < data.length)
    (hl : jsStartsWith data 0 START_CODE_LONG = false)
    (hs : jsStartsWith data 0 START_CODE_SHORT = true) :
    scanLoop ops data st frame ub 0 = scanLoop ops data st frame 3 3 := by
  conv_lhs => rw [scanLoop, show data.length + 1 - 0 = (data.length - 0) + 1 by omega]
  simp only [scanGo]
  rw [if_pos (by omega), if_neg (by simp [hl]), if_pos hs, if_neg (by omega)]
  exact scanGo_eq_scanLoop ops data _ st frame 3 3 (by omega)

end MoonlightStream

namespace MoonlightStream

/-- One of the two Annex-B start codes: `true` picks the 4-byte one. -/
def scBytes (b : Bool) : Bytes := if b then START_CODE_LONG else START_CODE_SHORT

theorem scBytes_length (b : Bool) : (scBytes b).length = if b then 4 else 3 := by
  cases b <;> rfl

theorem jsStartsWith_long_of_short_delim (pre rest : Bytes) (d : Nat)
    (hd : d = pre.length) :
    jsStartsWith (pre ++ (START_CODE_SHORT ++ rest)) d START_CODE_LONG = false := by
  subst hd
  apply jsStartsWith_false_of_mismatch _ _ _ 2 (by decide)
  rw [List.getD_append_right _ _ _ _ (by omega),
    Nat.add_sub_cancel_left,
    List.getD_append _ _ _ _ (by simp [START_CODE_SHORT])]
  decide

/-- At a delimiter position (other than offset 0) the scanner emits the
pending slice and jumps past the start code, whichever of the two codes it
is. -/
theorem scanLoop_delimiter {σ : Type} (ops : TranslatorOps σ) (pre rest : Bytes)
    (bb : Bool) (st st' : σ) (frame frame' : Bytes) (ub d : Nat)
    (hd : d = pre.length) (hd0 : d ≠ 0)
    (hhs : handleStartCode ops (pre ++ (scBytes bb ++ rest)) ub d st frame =
      (st', some frame')) :
    scanLoop ops (pre ++ (scBytes bb ++ rest)) st frame ub d =
      scanLoop ops (pre ++ (scBytes bb ++ rest)) st' frame'
        (d + (scBytes bb).length) (d + (scBytes bb).length) := by
  have hlen : d < (pre ++ (scBytes bb ++ rest)).length := by
    subst hd
    cases bb <;> simp [scBytes, START_CODE_SHORT, START_CODE_LONG]
  cases bb with
  | true =>
      have hl : jsStartsWith (pre ++ (scBytes true ++ rest)) d START_CODE_LONG = true := by
        subst hd
        have := jsStartsWith_of_append pre (scBytes true) rest
        simpa [scBytes] using this
      rw [scanLoop_long ops _ st frame ub d hlen hl hd0, hhs]
      simp [scBytes_length]
  | false =>
      have hs : jsStartsWith (pre ++ (scBytes false ++ rest)) d START_CODE_SHORT = true := by
        subst hd
        have := jsStartsWith_of_append pre (scBytes false) rest
        simpa [scBytes] using this
      have hl : jsStartsWith (pre ++ (scBytes false ++ rest)) d START_CODE_LONG = false := by
        have := jsStartsWith_long_of_short_delim pre rest d hd
        simpa [scBytes] using this
      rw [scanLoop_short ops _ st frame ub d hlen hl hs hd0, hhs]
      simp [scBytes_length]

/-- A start code at offset 0 is skipped with no spurious empty leading
slice. -/
theorem scanLoop_delimiter_zero {σ : Type} (ops : TranslatorOps σ) (rest : Bytes)
    (bb : Bool) (st : σ) (frame : Bytes) (ub : Nat) :
    scanLoop ops (scBytes bb ++ rest) st frame ub 0 =
      scanLoop ops (scBytes bb ++ rest) st frame
        (scBytes bb).length (scBytes bb).length := by
  have hlen : 0 < (scBytes bb ++ rest).length := by
    cases bb <;> simp [scBytes, START_CODE_SHORT, START_CODE_LONG]
  cases bb with
  | true =>
      have hl : jsStartsWith (scBytes true ++ rest) 0 START_CODE_LONG = true := by
        simpa using jsStartsWith_of_append [] (scBytes true) rest
      exact scanLoop_zero_long ops _ st frame ub hlen hl
  | false =>
      have hs : jsStartsWith (scBytes false ++ rest) 0 START_CODE_SHORT = true := by
        simpa using jsStartsWith_of_append [] (scBytes false) rest
      have hl : jsStartsWith (scBytes false ++ rest) 0 START_CODE_LONG = false := by
        simpa using jsStartsWith_long_of_short_delim [] rest 0 rfl
      exact scanLoop_zero_short ops _ st frame ub hlen hl hs

/-- `handleStartCode` on a window that exactly covers `body`, when the
classifier excludes the slice from the chunk (parameter sets). -/
theorem handleStartCode_slice_skip {σ : Type} (ops : TranslatorOps σ)
    (pre body rest : Bytes) (st st' : σ) (frame : Bytes) (ub d : Nat)
    (hub : ub = pre.length) (hd : d = pre.length + body.length)
    (hon : ops.onChunkUnit st body = (st', some false)) :
    handleStartCode ops (pre ++ (body ++ rest)) ub d st frame = (st', some frame) := by
  subst hub hd
  unfold handleStartCode
  rw [show pre.length + body.length - pre.length = body.length by omega,
    slice_of_append]
  dsimp only
  rw [hon]
  simp

/-- `handleStartCode` on a window that exactly covers `body`, when the
classifier includes the slice: `uint32-BE(|body|) ++ body` is appended. -/
theorem handleStartCode_slice_keep {σ : Type} (ops : TranslatorOps σ)
    (pre body rest : Bytes) (st st' : σ) (frame : Bytes) (ub d : Nat)
    (hub : ub = pre.length) (hd : d = pre.length + body.length)
    (hon : ops.onChunkUnit st body = (st', some true)) :
    handleStartCode ops (pre ++ (body ++ rest)) ub d st frame =
      (st', some (frame ++ be32 body.length ++ body)) := by
  subst hub hd
  unfold handleStartCode
  rw [show pre.length + body.length - pre.length = body.length by omega,
    slice_of_append]
  dsimp only
  rw [hon]
  simp

end MoonlightStream

namespace MoonlightStream

/-- A key unit holding exactly the NALs `S`, `P`, `I`, each preceded by a
3- or 4-byte start code. -/
def threeNalData (a b c : Bool) (S P I : Bytes) : Bytes :=
  scBytes a ++ S ++ scBytes b ++ P ++ scBytes c ++ I

theorem threeNalData_length (a b c : Bool) (S P I : Bytes) :
    (threeNalData a b c S P I).length =
      (scBytes a).length + S.length + (scBytes b).length + P.length +
        (scBytes c).length + I.length := by
  simp [threeNalData]
  omega


/-- Scanning a key unit `[sc, S, sc, P, sc, I]` with the H.264 callbacks:
`S` is buffered as the SPS (updating the codec tag from its profile bytes),
`P` is buffered as the PPS, and only `I` is appended — length-prefixed — to
the chunk. -/
theorem h264_scanLoop_threeNal
    (a b c : Bool) (S P I : Bytes) (st : H264TState) (ps : H264Sps)
    (hS7 : h264NalType (S.getD 0 0) = 7)
    (hP8 : h264NalType (P.getD 0 0) = 8)
    (hI7 : ¬h264NalType (I.getD 0 0) = 7) (hI8 : ¬h264NalType (I.getD 0 0) = 8)
    (hps : h264ParseSps S = some ps)
    (hnoS : ∀ q < (scBytes a).length + S.length, (scBytes a).length ≤ q →
        scAt (threeNalData a b c S P I) q = false)
    (hnoP : ∀ q < (scBytes a).length + S.length + (scBytes b).length + P.length,
        (scBytes a).length + S.length + (scBytes b).length ≤ q →
        scAt (threeNalData a b c S P I) q = false)
    (hnoI : ∀ q < (threeNalData a b c S P I).length,
        (scBytes a).length + S.length + (scBytes b).length + P.length +
          (scBytes c).length ≤ q →
        scAt (threeNalData a b c S P I) q = false) :
    scanLoop h264Ops (threeNalData a b c S P I) st [] 0 0 =
      ({ st with codec := ps.avc1, sps := some S, pps := some P },
       some (be32 I.length ++ I)) := by
  have hdec0 : threeNalData a b c S P I =
      scBytes a ++ (S ++ (scBytes b ++ (P ++ (scBytes c ++ I)))) := by
    simp [threeNalData, List.append_assoc]
  have hdec2 : threeNalData a b c S P I =
      (scBytes a ++ S) ++ (scBytes b ++ (P ++ (scBytes c ++ I))) := by
    simp [threeNalData, List.append_assoc]
  have hdec3 : threeNalData a b c S P I =
      (scBytes a ++ S ++ scBytes b) ++ (P ++ (scBytes c ++ I)) := by
    simp [threeNalData, List.append_assoc]
  have hdec4 : threeNalData a b c S P I =
      (scBytes a ++ S ++ scBytes b ++ P) ++ (scBytes c ++ I) := by
    simp [threeNalData, List.append_assoc]
  have hdec5 : threeNalData a b c S P I =
      (scBytes a ++ S ++ scBytes b ++ P ++ scBytes c) ++ (I ++ []) := by
    simp [threeNalData, List.append_assoc]
  -- start code at offset 0: skipped, no empty slice
  rw [hdec0, scanLoop_delimiter_zero, ← hdec0]
  -- the S region holds no start code
  rw [scanLoop_skip h264Ops _ st [] _ _ ((scBytes a).length + S.length)
    (by omega) (by rw [threeNalData_length]; omega)
    (fun q h1 h2 => hnoS q h2 h1)]
  -- the delimiter in front of P; S is handled as the SPS
  have honS : h264Ops.onChunkUnit st S =
      ({ st with codec := ps.avc1, sps := some S }, some false) := by
    simp only [h264Ops, h264OnChunkUnit]
    rw [hS7]
    simp [hps]
  rw [hdec2, scanLoop_delimiter h264Ops (scBytes a ++ S) _ b st _ [] [] _ _
      (by simp only [List.length_append, List.length_nil]; try omega)
      (by cases a <;> simp [scBytes_length] <;> omega)
      (by rw [List.append_assoc (scBytes a) S (scBytes b ++ (P ++ (scBytes c ++ I)))]
          exact handleStartCode_slice_skip h264Ops (scBytes a) S _ st _ [] _ _
            rfl rfl honS),
    ← hdec2]
  -- the P region holds no start code
  rw [scanLoop_skip h264Ops _ _ [] _ _
    ((scBytes a).length + S.length + (scBytes b).length + P.length)
    (by omega) (by rw [threeNalData_length]; omega)
    (fun q h1 h2 => hnoP q h2 h1)]
  -- the delimiter in front of I; P is handled as the PPS
  have honP : h264Ops.onChunkUnit { st with codec := ps.avc1, sps := some S } P =
      ({ st with codec := ps.avc1, sps := some S, pps := some P }, some false) := by
    simp only [h264Ops, h264OnChunkUnit]
    rw [hP8]
    simp
  rw [hdec4, scanLoop_delimiter h264Ops (scBytes a ++ S ++ scBytes b ++ P) _ c _ _ [] [] _ _
      (by simp only [List.length_append, List.length_nil]; try omega)
      (by cases a <;> simp [scBytes_length] <;> omega)
      (by rw [List.append_assoc (scBytes a ++ S ++ scBytes b) P (scBytes c ++ I)]
          exact handleStartCode_slice_skip h264Ops (scBytes a ++ S ++ scBytes b) P _ _ _ [] _ _
            (by simp only [List.length_append, List.length_nil]; try omega)
            (by simp only [List.length_append, List.length_nil]; try omega) honP),
    ← hdec4]
  -- the I region holds no start code
  rw [scanLoop_skip h264Ops _ _ [] _ _ (threeNalData a b c S P I).length
    (by rw [threeNalData_length]; omega) le_rfl
    (fun q h1 h2 => hnoI q h2 h1)]
  -- past the end: I is the final slice and is included
  have honI : h264Ops.onChunkUnit
      { st with codec := ps.avc1, sps := some S, pps := some P } I =
      ({ st with codec := ps.avc1, sps := some S, pps := some P }, some true) := by
    simp only [h264Ops, h264OnChunkUnit]
    rw [if_neg hI7, if_neg hI8]
  rw [scanLoop_stop h264Ops _ _ [] _ _ le_rfl]
  rw [hdec5, handleStartCode_slice_keep h264Ops
    (scBytes a ++ S ++ scBytes b ++ P ++ scBytes c) I [] _ _ [] _ _
    (by simp only [List.length_append, List.length_nil]; try omega)
    (by simp only [List.length_append, List.length_nil]; try omega) honI]
  simp

end MoonlightStream

namespace MoonlightStream

/-- An SPS NAL of at least four bytes parses successfully, and the codec
tag is assembled from its profile, constraint and level bytes. -/
theorem h264ParseSps_of_length (S : Bytes) (h4 : 4 ≤ S.length)
    (h7 : h264NalType (S.getD 0 0) = 7) :
    ∃ ps, h264ParseSps S = some ps ∧
      ps.profileIdc = S.getD 1 0 ∧ ps.constraintFlags = S.getD 2 0 ∧
      ps.levelIdc = S.getD 3 0 ∧
      ps.avc1 = "avc1." ++ numToHex (S.getD 1 0) ++ numToHex (S.getD 2 0)
        ++ numToHex (S.getD 3 0) := by
  match S, h4 with
  | s0 :: s1 :: s2 :: s3 :: r, _ =>
      simp only [List.getD_cons_zero] at h7
      refine ⟨{ profileIdc := s1, constraintFlags := s2, levelIdc := s3,
                avc1 := "avc1." ++ numToHex s1 ++ numToHex s2 ++ numToHex s3 },
        ?_, by simp, by simp, by simp, by simp⟩
      simp [h264ParseSps, h7]

/-- `H264StreamVideoTranslator.submitDecodeUnit` on a key unit made of
`S`, `P`, `I`: the chunk is `uint32-BE(|I|) ++ I`, the AVCC description is
synthesized from `S` and `P`, and `hasDescription` latches. -/
theorem h264_submit_threeNal
    (a b c : Bool) (S P I : Bytes) (st : H264TState) (ps : H264Sps)
    (u : VideoDecodeUnit)
    (hu : u.type = UnitType.key) (hdata : u.data = threeNalData a b c S P I)
    (hS7 : h264NalType (S.getD 0 0) = 7)
    (hP8 : h264NalType (P.getD 0 0) = 8)
    (hI7 : ¬h264NalType (I.getD 0 0) = 7) (hI8 : ¬h264NalType (I.getD 0 0) = 8)
    (hps : h264ParseSps S = some ps)
    (hnoS : ∀ q < (scBytes a).length + S.length, (scBytes a).length ≤ q →
        scAt (threeNalData a b c S P I) q = false)
    (hnoP : ∀ q < (scBytes a).length + S.length + (scBytes b).length + P.length,
        (scBytes a).length + S.length + (scBytes b).length ≤ q →
        scAt (threeNalData a b c S P I) q = false)
    (hnoI : ∀ q < (threeNalData a b c S P I).length,
        (scBytes a).length + S.length + (scBytes b).length + P.length +
          (scBytes c).length ≤ q →
        scAt (threeNalData a b c S P I) q = false) :
    h264Submit st u =
      ({ codec := ps.avc1, description := some (h264MakeAvcC S P),
         hasDescription := true, sps := none, pps := none },
       some { configure := some { codec := ps.avc1,
                                  description := some (h264MakeAvcC S P) },
              chunk := some (be32 I.length ++ I) }) := by
  unfold h264Submit submitDecodeUnit
  rw [hu, hdata,
    h264_scanLoop_threeNal a b c S P I st ps hS7 hP8 hI7 hI8 hps hnoS hnoP hnoI]
  simp [h264Ops, h264EndChunk]

end MoonlightStream

namespace MoonlightStream

/-- C1: for every encoded video unit of type "key" whose data is exactly an
SPS (type 7, body `S`), a PPS (type 8, body `P`) and an IDR (type 5, body
`I`), each preceded by either the 3-byte start code `00 00 01` or the 4-byte
start code `00 00 00 01` in any mixture (and with no further start-code
pattern inside the three regions), `H264StreamVideoTranslator.submitDecodeUnit`
returns a chunk equal to exactly `uint32-BE(|I|) ++ I` — no spurious empty
leading slice is produced for the start code at offset 0 — returns a
configure value whose description is synthesized from `S` and `P`
(`h264MakeAvcC S P`), and sets `hasDescription` to true. -/
theorem C1_annexb_three_nal
    (a b c : Bool) (S P I : Bytes) (st : H264TState) (u : VideoDecodeUnit)
    (hu : u.type = UnitType.key) (hdata : u.data = threeNalData a b c S P I)
    (hS4 : 4 ≤ S.length)
    (hS7 : h264NalType (S.getD 0 0) = 7)
    (hP8 : h264NalType (P.getD 0 0) = 8)
    (hI5 : h264NalType (I.getD 0 0) = 5)
    (hnoS : ∀ q < (scBytes a).length + S.length, (scBytes a).length ≤ q →
        scAt (threeNalData a b c S P I) q = false)
    (hnoP : ∀ q < (scBytes a).length + S.length + (scBytes b).length + P.length,
        (scBytes a).length + S.length + (scBytes b).length ≤ q →
        scAt (threeNalData a b c S P I) q = false)
    (hnoI : ∀ q < (threeNalData a b c S P I).length,
        (scBytes a).length + S.length + (scBytes b).length + P.length +
          (scBytes c).length ≤ q →
        scAt (threeNalData a b c S P I) q = false) :
    ∃ ps, h264ParseSps S = some ps ∧
      h264Submit st u =
        ({ codec := ps.avc1, description := some (h264MakeAvcC S P),
           hasDescription := true, sps := none, pps := none },
         some { configure := some { codec := ps.avc1,
                                    description := some (h264MakeAvcC S P) },
                chunk := some (be32 I.length ++ I) }) := by
  obtain ⟨ps, hps, -, -, -, -⟩ := h264ParseSps_of_length S hS4 hS7
  exact ⟨ps, hps,
    h264_submit_threeNal a b c S P I st ps u hu hdata hS7 hP8
      (by rw [hI5]; omega) (by rw [hI5]; omega) hps hnoS hnoP hnoI⟩

/-- Concrete SPS/PPS/IDR bodies used by witnesses. -/
def c1S : Bytes := [0x67, 0x42, 0xE0, 0x1E]

def c1P : Bytes := [0x68, 0xCE, 0x3C, 0x80]

def c1I : Bytes := [0x65, 0xAA, 0xBB]

/-- A concrete key unit: long start code before the SPS, short before the
PPS, long before the IDR. -/
def c1Unit : VideoDecodeUnit :=
  { type := UnitType.key, data := threeNalData true false true c1S c1P c1I,
    timestampMicroseconds := 0, durationMicroseconds := 0 }

/-- Witness for C1 at a concrete unit. -/
theorem C1_annexb_three_nal_witness :
    ∃ ps, h264ParseSps c1S = some ps ∧
      h264Submit h264Init c1Unit =
        ({ codec := ps.avc1, description := some (h264MakeAvcC c1S c1P),
           hasDescription := true, sps := none, pps := none },
         some { configure := some { codec := ps.avc1,
                                    description := some (h264MakeAvcC c1S c1P) },
                chunk := some (be32 c1I.length ++ c1I) }) :=
  C1_annexb_three_nal true false true c1S c1P c1I h264Init c1Unit rfl rfl
    (by decide) (by decide) (by decide) (by decide)
    (by decide) (by decide) (by decide)

end MoonlightStream

namespace MoonlightStream

theorem handleStartCode_fst {σ : Type} (ops : TranslatorOps σ) (data : Bytes)
    (ub pos : Nat) (st : σ) (frame : Bytes) :
    (handleStartCode ops data ub pos st frame).1 =
      (ops.onChunkUnit st ((data.drop ub).take (pos - ub))).1 := by
  unfold handleStartCode
  cases h : ops.onChunkUnit st ((data.drop ub).take (pos - ub)) with
  | mk st' r =>
      cases r with
      | none => simp [h]
      | some incl => simp only [h]
                     split <;> rfl

/-- Any property preserved by `onChunkUnit` is preserved by the whole
scanner (also across the throwing path). -/
theorem scanLoop_inv {σ : Type} (ops : TranslatorOps σ) (data : Bytes)
    (Q : σ → Prop) (hQ : ∀ st s, Q st → Q (ops.onChunkUnit st s).1) :
    ∀ (st : σ) (frame : Bytes) (ub pos : Nat), Q st →
      Q (scanLoop ops data st frame ub pos).1 := by
  have haux : ∀ (st : σ) (frame : Bytes) (ub pos : Nat) (st' : σ) (r : Option Bytes),
      (if pos ≠ 0 then handleStartCode ops data ub pos st frame
       else (st, some frame)) = (st', r) → Q st → Q st' := by
    intro st frame ub pos st' r hif hQst
    split at hif
    · have h1 : (handleStartCode ops data ub pos st frame).1 = st' := by rw [hif]
      rw [handleStartCode_fst] at h1
      rw [← h1]
      exact hQ _ _ hQst
    · cases hif
      exact hQst
  have hgo : ∀ (fuel : Nat) (st : σ) (frame : Bytes) (ub pos : Nat), Q st →
      Q (scanGo ops data fuel st frame ub pos).1 := by
    intro fuel
    induction fuel with
    | zero =>
        intro st frame ub pos hQst
        show Q (handleStartCode ops data ub pos st frame).1
        rw [handleStartCode_fst]
        exact hQ _ _ hQst
    | succ n ih =>
        intro st frame ub pos hQst
        simp only [scanGo]
        by_cases h : pos < data.length
        case neg =>
            rw [if_neg h]
            rw [handleStartCode_fst]
            exact hQ _ _ hQst
        case pos =>
            rw [if_pos h]
            by_cases hl : jsStartsWith data pos START_CODE_LONG
            · rw [if_pos hl]
              rcases hif : (if pos ≠ 0 then handleStartCode ops data ub pos st frame
                  else (st, some frame)) with ⟨st', _ | frame'⟩
              · exact haux st frame ub pos st' none hif hQst
              · exact ih st' frame' (pos + 4) (pos + 4)
                  (haux st frame ub pos st' (some frame') hif hQst)
            · rw [if_neg hl]
              by_cases hsh : jsStartsWith data pos START_CODE_SHORT
              · rw [if_pos hsh]
                rcases hif : (if pos ≠ 0 then handleStartCode ops data ub pos st frame
                    else (st, some frame)) with ⟨st', _ | frame'⟩
                · exact haux st frame ub pos st' none hif hQst
                · exact ih st' frame' (pos + 3) (pos + 3)
                    (haux st frame ub pos st' (some frame') hif hQst)
              · rw [if_neg hsh]
                exact ih st frame ub (pos + 1) hQst
  intro st frame ub pos hQst
  exact hgo _ st frame ub pos hQst

end MoonlightStream

namespace MoonlightStream

/-- Whether a submit result carries a reconfiguration. -/
def resultConfigured : Option SubmitResult → Bool
  | some r => r.configure.isSome
  | none => false

/-- Shape of `submitDecodeUnit` on the processing path without a throw. -/
theorem submitDecodeUnit_ok_shape {σ : Type} (ops : TranslatorOps σ) (st : σ)
    (u : VideoDecodeUnit) (st' : σ) (frame : Bytes)
    (hsp : ops.startProcessChunk st u.type = true)
    (hsc : scanLoop ops u.data st [] 0 0 = (st', some frame)) :
    submitDecodeUnit ops st u =
      ((ops.endChunk st').1,
       some { configure := if (ops.endChunk st').2
                then some (ops.getConfig (ops.endChunk st').1) else none,
              chunk := some frame }) := by
  unfold submitDecodeUnit
  rw [if_pos hsp, hsc]

/-- Shape of `submitDecodeUnit` when the scanner throws. -/
theorem submitDecodeUnit_throw_shape {σ : Type} (ops : TranslatorOps σ) (st : σ)
    (u : VideoDecodeUnit) (st' : σ)
    (hsp : ops.startProcessChunk st u.type = true)
    (hsc : scanLoop ops u.data st [] 0 0 = (st', none)) :
    submitDecodeUnit ops st u = (st', none) := by
  unfold submitDecodeUnit
  rw [if_pos hsp, hsc]

theorem h264OnChunkUnit_hasDescription (st : H264TState) (s : Bytes) :
    (h264OnChunkUnit st s).1.hasDescription = st.hasDescription := by
  unfold h264OnChunkUnit
  dsimp only
  split_ifs
  · cases h264ParseSps s <;> rfl
  · rfl
  · rfl

/-- `h264EndChunk` reconfigures exactly by consuming both parameter sets. -/
theorem h264EndChunk_true (st' st'' : H264TState)
    (h : h264EndChunk st' = (st'', true)) :
    st''.sps = none ∧ st''.pps = none ∧ st''.hasDescription = true := by
  unfold h264EndChunk at h
  cases hsps : st'.sps <;> cases hpps : st'.pps <;> rw [hsps, hpps] at h <;>
    simp at h
  subst h
  simp

/-- `hasDescription` after `H264StreamVideoTranslator.submitDecodeUnit`:
set exactly when a reconfigure is returned, and never cleared. -/
theorem h264Submit_hasDescription (st : H264TState) (u : VideoDecodeUnit) :
    (h264Submit st u).1.hasDescription =
      (st.hasDescription || resultConfigured (h264Submit st u).2) := by
  unfold h264Submit
  by_cases hsp : h264Ops.startProcessChunk st u.type
  case neg =>
    unfold submitDecodeUnit
    simp [hsp, resultConfigured]
  case pos =>
    have hscan : (scanLoop h264Ops u.data st [] 0 0).1.hasDescription
        = st.hasDescription :=
      scanLoop_inv h264Ops u.data (fun x => x.hasDescription = st.hasDescription)
        (fun x s hx => by
          show (h264OnChunkUnit x s).1.hasDescription = st.hasDescription
          rw [h264OnChunkUnit_hasDescription]
          exact hx)
        st [] 0 0 rfl
    cases hsc : scanLoop h264Ops u.data st [] 0 0 with
    | mk st' fr =>
        rw [hsc] at hscan
        dsimp only at hscan
        cases fr with
        | none =>
            rw [submitDecodeUnit_throw_shape h264Ops st u st' hsp hsc]
            simpa [resultConfigured] using hscan
        | some frame =>
            rw [submitDecodeUnit_ok_shape h264Ops st u st' frame hsp hsc]
            show (h264EndChunk st').1.hasDescription = _
            unfold h264EndChunk
            cases hsps : st'.sps <;> cases hpps : st'.pps <;>
              simp [resultConfigured, hscan, show h264Ops.endChunk = h264EndChunk from rfl,
                h264EndChunk, hsps, hpps]

/-- A delta unit before any reconfigure produces no chunk and no state
change. -/
theorem h264Submit_delta (st : H264TState) (u : VideoDecodeUnit)
    (hd : st.hasDescription = false) (ht : u.type = UnitType.delta) :
    h264Submit st u = (st, some { configure := none, chunk := none }) := by
  unfold h264Submit submitDecodeUnit
  simp [h264Ops, ht, hd]

/-- Once `hasDescription` holds, every non-throwing submit returns a chunk. -/
theorem h264Submit_chunk_of_hasDescription (st : H264TState) (u : VideoDecodeUnit)
    (r : SubmitResult) (hd : st.hasDescription = true)
    (hr : (h264Submit st u).2 = some r) : r.chunk.isSome = true := by
  unfold h264Submit at hr
  have hsp : h264Ops.startProcessChunk st u.type = true := by
    simp [h264Ops, hd]
  cases hsc : scanLoop h264Ops u.data st [] 0 0 with
  | mk st' fr =>
      cases fr with
      | none =>
          rw [submitDecodeUnit_throw_shape h264Ops st u st' hsp hsc] at hr
          simp at hr
      | some frame =>
          rw [submitDecodeUnit_ok_shape h264Ops st u st' frame hsp hsc] at hr
          simp only [Option.some.injEq] at hr
          rw [← hr]
          rfl

/-- Pending parameter sets are cleared whenever a reconfigure is emitted. -/
theorem h264Submit_cleared (st : H264TState) (u : VideoDecodeUnit)
    (r : SubmitResult) (hr : (h264Submit st u).2 = some r)
    (hc : r.configure.isSome = true) :
    (h264Submit st u).1.sps = none ∧ (h264Submit st u).1.pps = none := by
  unfold h264Submit at hr ⊢
  by_cases hsp : h264Ops.startProcessChunk st u.type
  case neg =>
      unfold submitDecodeUnit at hr ⊢
      rw [if_neg hsp] at hr ⊢
      simp at hr
      rw [← hr] at hc
      simp at hc
  case pos =>
      cases hsc : scanLoop h264Ops u.data st [] 0 0 with
      | mk st' fr =>
          cases fr with
          | none =>
              rw [submitDecodeUnit_throw_shape h264Ops st u st' hsp hsc] at hr
              simp at hr
          | some frame =>
              rw [submitDecodeUnit_ok_shape h264Ops st u st' frame hsp hsc] at hr ⊢
              simp only [Option.some.injEq] at hr
              rw [← hr] at hc
              by_cases hrec : (h264Ops.endChunk st').2 = true
              case neg =>
                  simp [hrec] at hc
              case pos =>
                  cases he : h264EndChunk st' with
                  | mk st'' reconf =>
                      have he' : h264Ops.endChunk st' = (st'', reconf) := he
                      have hrec' : reconf = true := by
                        rw [he'] at hrec
                        exact hrec
                      subst hrec'
                      obtain ⟨h1, h2, -⟩ := h264EndChunk_true st' st'' he
                      rw [he']
                      exact ⟨h1, h2⟩

theorem h265OnChunkUnit_hasDescription (st : H265TState) (s : Bytes) :
    (h265OnChunkUnit st s).1.hasDescription = st.hasDescription := by
  unfold h265OnChunkUnit
  dsimp only
  split_ifs <;> rfl

/-- `h265EndChunk` reconfigures exactly by consuming all three parameter
sets. -/
theorem h265EndChunk_true (st' st'' : H265TState)
    (h : h265EndChunk st' = (st'', true)) :
    st''.vps = none ∧ st''.sps = none ∧ st''.pps = none ∧
      st''.hasDescription = true := by
  unfold h265EndChunk at h
  cases hvps : st'.vps <;> cases hsps : st'.sps <;> cases hpps : st'.pps <;>
    rw [hvps, hsps, hpps] at h <;> simp at h
  subst h
  simp

/-- `hasDescription` after `H265StreamVideoTranslator.submitDecodeUnit`:
set exactly when a reconfigure is returned, and never cleared. -/
theorem h265Submit_hasDescription (st : H265TState) (u : VideoDecodeUnit) :
    (h265Submit st u).1.hasDescription =
      (st.hasDescription || resultConfigured (h265Submit st u).2) := by
  unfold h265Submit
  by_cases hsp : h265Ops.startProcessChunk st u.type
  case neg =>
    unfold submitDecodeUnit
    simp [hsp, resultConfigured]
  case pos =>
    have hscan : (scanLoop h265Ops u.data st [] 0 0).1.hasDescription
        = st.hasDescription :=
      scanLoop_inv h265Ops u.data (fun x => x.hasDescription = st.hasDescription)
        (fun x s hx => by
          show (h265OnChunkUnit x s).1.hasDescription = st.hasDescription
          rw [h265OnChunkUnit_hasDescription]
          exact hx)
        st [] 0 0 rfl
    cases hsc : scanLoop h265Ops u.data st [] 0 0 with
    | mk st' fr =>
        rw [hsc] at hscan
        dsimp only at hscan
        cases fr with
        | none =>
            rw [submitDecodeUnit_throw_shape h265Ops st u st' hsp hsc]
            simpa [resultConfigured] using hscan
        | some frame =>
            rw [submitDecodeUnit_ok_shape h265Ops st u st' frame hsp hsc]
            show (h265EndChunk st').1.hasDescription = _
            unfold h265EndChunk
            cases hvps : st'.vps <;> cases hsps : st'.sps <;> cases hpps : st'.pps <;>
              simp [resultConfigured, hscan, show h265Ops.endChunk = h265EndChunk from rfl,
                h265EndChunk, hvps, hsps, hpps]

/-- A delta unit before any reconfigure produces no chunk and no state
change (H.265). -/
theorem h265Submit_delta (st : H265TState) (u : VideoDecodeUnit)
    (hd : st.hasDescription = false) (ht : u.type = UnitType.delta) :
    h265Submit st u = (st, some { configure := none, chunk := none }) := by
  unfold h265Submit submitDecodeUnit
  simp [h265Ops, ht, hd]

/-- Once `hasDescription` holds, every non-throwing submit returns a chunk
(H.265). -/
theorem h265Submit_chunk_of_hasDescription (st : H265TState) (u : VideoDecodeUnit)
    (r : SubmitResult) (hd : st.hasDescription = true)
    (hr : (h265Submit st u).2 = some r) : r.chunk.isSome = true := by
  unfold h265Submit at hr
  have hsp : h265Ops.startProcessChunk st u.type = true := by
    simp [h265Ops, hd]
  cases hsc : scanLoop h265Ops u.data st [] 0 0 with
  | mk st' fr =>
      cases fr with
      | none =>
          rw [submitDecodeUnit_throw_shape h265Ops st u st' hsp hsc] at hr
          simp at hr
      | some frame =>
          rw [submitDecodeUnit_ok_shape h265Ops st u st' frame hsp hsc] at hr
          simp only [Option.some.injEq] at hr
          rw [← hr]
          rfl

/-- Pending parameter sets are cleared whenever a reconfigure is emitted
(H.265). -/
theorem h265Submit_cleared (st : H265TState) (u : VideoDecodeUnit)
    (r : SubmitResult) (hr : (h265Submit st u).2 = some r)
    (hc : r.configure.isSome = true) :
    (h265Submit st u).1.vps = none ∧ (h265Submit st u).1.sps = none ∧
      (h265Submit st u).1.pps = none := by
  unfold h265Submit at hr ⊢
  by_cases hsp : h265Ops.startProcessChunk st u.type
  case neg =>
      unfold submitDecodeUnit at hr ⊢
      rw [if_neg hsp] at hr ⊢
      simp at hr
      rw [← hr] at hc
      simp at hc
  case pos =>
      cases hsc : scanLoop h265Ops u.data st [] 0 0 with
      | mk st' fr =>
          cases fr with
          | none =>
              rw [submitDecodeUnit_throw_shape h265Ops st u st' hsp hsc] at hr
              simp at hr
          | some frame =>
              rw [submitDecodeUnit_ok_shape h265Ops st u st' frame hsp hsc] at hr ⊢
              simp only [Option.some.injEq] at hr
              rw [← hr] at hc
              by_cases hrec : (h265Ops.endChunk st').2 = true
              case neg =>
                  simp [hrec] at hc
              case pos =>
                  cases he : h265EndChunk st' with
                  | mk st'' reconf =>
                      have he' : h265Ops.endChunk st' = (st'', reconf) := he
                      have hrec' : reconf = true := by
                        rw [he'] at hrec
                        exact hrec
                      subst hrec'
                      obtain ⟨h1, h2, h3, -⟩ := h265EndChunk_true st' st'' he
                      rw [he']
                      exact ⟨h1, h2, h3⟩

/-- A delta unit with a single non-parameter-set NAL. -/
def c2Delta : VideoDecodeUnit :=
  { type := UnitType.delta, data := START_CODE_LONG ++ [0x41, 0x9A],
    timestampMicroseconds := 0, durationMicroseconds := 0 }

/-- An H.265 key unit holding a VPS, an SPS, a PPS and an IDR NAL. -/
def c2H265Key : VideoDecodeUnit :=
  { type := UnitType.key,
    data := START_CODE_LONG ++ [0x40, 0x01] ++ START_CODE_SHORT ++ [0x42, 0x01]
      ++ START_CODE_SHORT ++ [0x44, 0x01] ++ START_CODE_LONG ++ [0x26, 0x02],
    timestampMicroseconds := 0, durationMicroseconds := 0 }

def c2StDesc : H264TState := { h264Init with hasDescription := true }

def c2StDesc265 : H265TState := { h265Init with hasDescription := true }

def c2R264Delta : SubmitResult :=
  { configure := none, chunk := some [0, 0, 0, 2, 65, 154] }

def c2Cfg264 : VideoDecoderConfig :=
  { codec := "avc1.42e01e",
    description := some [1, 66, 224, 30, 255, 225, 0, 4, 103, 66, 224, 30,
      1, 0, 4, 104, 206, 60, 128] }

def c2R264Key : SubmitResult :=
  { configure := some c2Cfg264, chunk := some [0, 0, 0, 3, 101, 170, 187] }

def c2Cfg265 : VideoDecoderConfig :=
  { codec := "undefined",
    description := some [1, 0, 0, 0, 0, 0, 0, 0, 0, 0, 0, 0, 0, 240, 0, 252,
      253, 248, 248, 0, 0, 15, 3, 32, 0, 1, 0, 2, 64, 1, 33, 0, 1, 0, 2, 66,
      1, 34, 0, 1, 0, 2, 68, 1] }

def c2R265Key : SubmitResult :=
  { configure := some c2Cfg265, chunk := some [0, 0, 0, 2, 38, 2] }

def c2R265Delta : SubmitResult := { configure := none, chunk := some [] }

/-- C2: for both translator state machines, `hasDescription` is set to true
exactly by a successful reconfigure and never reverts (the equation makes it
monotone in the state); a delta unit before any reconfigure yields
`chunk = null`; once `hasDescription` holds, every returned result carries a
non-null chunk (in particular a keyframe lacking parameter sets); and the
pending parameter-set buffers are cleared to null on consumption. -/
theorem C2_parameter_set_latch :
    (∀ (st : H264TState) (u : VideoDecodeUnit),
        (h264Submit st u).1.hasDescription
          = (st.hasDescription || resultConfigured (h264Submit st u).2)) ∧
    (∀ (st : H264TState) (u : VideoDecodeUnit), st.hasDescription = false →
        u.type = UnitType.delta →
        h264Submit st u = (st, some { configure := none, chunk := none })) ∧
    (∀ (st : H264TState) (u : VideoDecodeUnit) (r : SubmitResult),
        st.hasDescription = true → (h264Submit st u).2 = some r →
        r.chunk.isSome = true) ∧
    (∀ (st : H264TState) (u : VideoDecodeUnit) (r : SubmitResult),
        (h264Submit st u).2 = some r → r.configure.isSome = true →
        (h264Submit st u).1.sps = none ∧ (h264Submit st u).1.pps = none) ∧
    (∀ (st : H265TState) (u : VideoDecodeUnit),
        (h265Submit st u).1.hasDescription
          = (st.hasDescription || resultConfigured (h265Submit st u).2)) ∧
    (∀ (st : H265TState) (u : VideoDecodeUnit), st.hasDescription = false →
        u.type = UnitType.delta →
        h265Submit st u = (st, some { configure := none, chunk := none })) ∧
    (∀ (st : H265TState) (u : VideoDecodeUnit) (r : SubmitResult),
        st.hasDescription = true → (h265Submit st u).2 = some r →
        r.chunk.isSome = true) ∧
    (∀ (st : H265TState) (u : VideoDecodeUnit) (r : SubmitResult),
        (h265Submit st u).2 = some r → r.configure.isSome = true →
        (h265Submit st u).1.vps = none ∧ (h265Submit st u).1.sps = none ∧
          (h265Submit st u).1.pps = none) :=
  ⟨h264Submit_hasDescription, h264Submit_delta, h264Submit_chunk_of_hasDescription,
   h264Submit_cleared, h265Submit_hasDescription, h265Submit_delta,
   h265Submit_chunk_of_hasDescription, h265Submit_cleared⟩

/-- Witness for C2 on concrete states and units. -/
theorem C2_parameter_set_latch_witness :
    ((h264Submit h264Init c1Unit).1.hasDescription
      = (h264Init.hasDescription || resultConfigured (h264Submit h264Init c1Unit).2)) ∧
    (h264Submit h264Init c2Delta
      = (h264Init, some { configure := none, chunk := none })) ∧
    c2R264Delta.chunk.isSome = true ∧
    ((h264Submit h264Init c1Unit).1.sps = none ∧
      (h264Submit h264Init c1Unit).1.pps = none) ∧
    ((h265Submit h265Init c2H265Key).1.hasDescription
      = (h265Init.hasDescription || resultConfigured (h265Submit h265Init c2H265Key).2)) ∧
    (h265Submit h265Init c2Delta
      = (h265Init, some { configure := none, chunk := none })) ∧
    c2R265Delta.chunk.isSome = true ∧
    ((h265Submit h265Init c2H265Key).1.vps = none ∧
      (h265Submit h265Init c2H265Key).1.sps = none ∧
      (h265Submit h265Init c2H265Key).1.pps = none) :=
  ⟨C2_parameter_set_latch.1 h264Init c1Unit,
   C2_parameter_set_latch.2.1 h264Init c2Delta rfl rfl,
   C2_parameter_set_latch.2.2.1 c2StDesc c2Delta c2R264Delta rfl (by decide),
   C2_parameter_set_latch.2.2.2.1 h264Init c1Unit c2R264Key (by decide) (by decide),
   C2_parameter_set_latch.2.2.2.2.1 h265Init c2H265Key,
   C2_parameter_set_latch.2.2.2.2.2.1 h265Init c2Delta rfl rfl,
   C2_parameter_set_latch.2.2.2.2.2.2.1 c2StDesc265 c2Delta c2R265Delta rfl (by decide),
   C2_parameter_set_latch.2.2.2.2.2.2.2 h265Init c2H265Key c2R265Key (by decide) (by decide)⟩

end MoonlightStream

namespace MoonlightStream

/-- The true big-endian 16-bit encoding (two bytes, no truncation) used to
state the AVCC layout. -/
def u16beSpec (n : Nat) : Bytes := [n / 256, n % 256]

/-- C3: for every buffered SPS `S` (at least the four header bytes) and PPS
`P`, both under the 16-bit length limit, the synthesized AVCC description is
exactly `01 S[1] S[2] S[3] FF E1 u16be(|S|) S 01 u16be(|P|) P`. -/
theorem C3_avcc_layout (S P : Bytes) (hS : 4 ≤ S.length)
    (hSlen : S.length < 65536) (hPlen : P.length < 65536) :
    h264MakeAvcC S P =
      [0x01, S.getD 1 0, S.getD 2 0, S.getD 3 0, 0xFF, 0xE1] ++
        u16beSpec S.length ++ S ++ [0x01] ++ u16beSpec P.length ++ P := by
  unfold h264MakeAvcC u16beSpec
  have h1 : S.length / 256 % 256 = S.length / 256 := by omega
  have h2 : P.length / 256 % 256 = P.length / 256 := by omega
  have h3 : S.length % 256 = S.length % 256 := rfl
  simp [h1, h2]

/-- Witness for C3: `S = 67 42 E0 1E`, `P = 68 CE 3C 80` produce
`01 42 E0 1E FF E1 00 04 S 01 00 04 P`. -/
theorem C3_avcc_layout_witness :
    h264MakeAvcC c1S c1P =
      [0x01, c1S.getD 1 0, c1S.getD 2 0, c1S.getD 3 0, 0xFF, 0xE1] ++
        u16beSpec c1S.length ++ c1S ++ [0x01] ++ u16beSpec c1P.length ++ c1P :=
  C3_avcc_layout c1S c1P (by decide) (by decide) (by decide)

/-- The specified rendering of a byte as exactly two lower-case hexadecimal
digits. -/
def hexDigitSpec (d : Nat) : Char :=
  if d < 10 then Char.ofNat (48 + d) else Char.ofNat (87 + d)

def byteToHexSpec (n : Nat) : String :=
  String.mk [hexDigitSpec (n / 16), hexDigitSpec (n % 16)]

/-- C9: `numToHex` renders every byte as exactly two lower-case zero-padded
hexadecimal digits, and for every SPS NAL processed by the H.264 translator
whose three bytes after the NAL header are `profile_idc`,
`constraint_flags`, `level_idc`, the translator sets the config codec to
`"avc1." ++ hex(profile) ++ hex(constraint) ++ hex(level)`. -/
theorem C9_sps_codec_tag :
    (∀ n < 256, numToHex n = byteToHexSpec n) ∧
    (∀ (st : H264TState) (h p c l : Nat) (rest : Bytes),
        h264NalType h = 7 → p < 256 → c < 256 → l < 256 →
        (h264OnChunkUnit st (h :: p :: c :: l :: rest)).1.codec =
          "avc1." ++ byteToHexSpec p ++ byteToHexSpec c ++ byteToHexSpec l) := by
  constructor
  · decide
  · intro st h p c l rest h7 hp hc hl
    have hhex : ∀ n < 256, numToHex n = byteToHexSpec n := by decide
    unfold h264OnChunkUnit
    rw [show List.getD (h :: p :: c :: l :: rest) 0 0 = h from rfl, if_pos h7]
    unfold h264ParseSps
    dsimp only
    rw [if_pos h7]
    simp [hhex p hp, hhex c hc, hhex l hl]

/-- Witness for C9: `profile=0x64, constraint=0x00, level=0x32` yields
`avc1.640032`. -/
theorem C9_sps_codec_tag_witness :
    numToHex 0x64 = byteToHexSpec 0x64 ∧
    (h264OnChunkUnit h264Init [0x67, 0x64, 0x00, 0x32]).1.codec =
      "avc1." ++ byteToHexSpec 0x64 ++ byteToHexSpec 0x00 ++ byteToHexSpec 0x32 :=
  ⟨C9_sps_codec_tag.1 0x64 (by decide),
   C9_sps_codec_tag.2 h264Init 0x67 0x64 0x00 0x32 [] (by decide) (by decide)
     (by decide) (by decide)⟩

end MoonlightStream

namespace MoonlightStream

/-! ## `ByteBuffer` (`web/stream/buffer.ts`) and the ISO-BMFF box emitter -/

/-- In-place write of `bs` at offset `p` (the underlying `Uint8Array` store).
All callers check `p + bs.length ≤ data.length` first. -/
def writeBytes (data : Bytes) (p : Nat) (bs : Bytes) : Bytes :=
  data.take p ++ (bs ++ data.drop (p + bs.length))

theorem writeBytes_length (data : Bytes) (p : Nat) (bs : Bytes)
    (h : p + bs.length ≤ data.length) :
    (writeBytes data p bs).length = data.length := by
  simp [writeBytes]
  omega

theorem readBytes_writeBytes (data : Bytes) (p : Nat) (bs : Bytes)
    (h : p ≤ data.length) :
    ((writeBytes data p bs).drop p).take bs.length = bs := by
  unfold writeBytes
  have h1 : (data.take p).length = p := by
    rw [List.length_take]
    omega
  have h2 := List.drop_left (data.take p) (bs ++ data.drop (p + bs.length))
  rw [h1] at h2
  rw [h2, List.take_left]

theorem drop_writeBytes (data : Bytes) (p : Nat) (bs : Bytes)
    (h : p ≤ data.length) :
    (writeBytes data p bs).drop (p + bs.length) = data.drop (p + bs.length) := by
  unfold writeBytes
  rw [show data.take p ++ (bs ++ data.drop (p + bs.length))
      = (data.take p ++ bs) ++ data.drop (p + bs.length) from by
    rw [List.append_assoc]]
  have h1 : (data.take p ++ bs).length = p + bs.length := by
    simp [List.length_take]
    omega
  rw [← h1, List.drop_left]

/-- The state of `ByteBuffer`: a cursor, a limit and a fixed-capacity byte
array. -/
structure ByteBuffer where
  position : Nat
  limit : Nat
  littleEndian : Bool
  data : Bytes
  deriving Repr, DecidableEq

/-- `new ByteBuffer(length, littleEndian)`: a zero-filled array with
`limit = length`. -/
def mkByteBuffer (length : Nat) (littleEndian : Bool) : ByteBuffer :=
  { position := 0, limit := length, littleEndian, data := List.replicate length 0 }

/-- `ByteBuffer.useDataView`: capacity check, limit update, and cursor
advance when no explicit index is given; returns the write position.
`none` models the `"failed to write over the capacity"` throw. -/
def useDataView (b : ByteBuffer) (len : Nat) (index : Option Nat) :
    Option (ByteBuffer × Nat) :=
  let pos := index.getD b.position
  if pos + len ≤ b.data.length then
    some ({ b with
            limit := max b.limit (pos + len),
            position := if index.isSome then b.position else b.position + len },
          pos)
  else none

/-- `ByteBuffer.putU8` (`Uint8Array` stores truncate to a byte). -/
def ByteBuffer.putU8 (b : ByteBuffer) (v : Nat) (index : Option Nat) :
    Option ByteBuffer :=
  match useDataView b 1 index with
  | none => none
  | some (b', pos) =>
      some { b' with
             data := writeBytes b'.data pos [v % 256] }

/-- `ByteBuffer.putU32` (`DataView.setUint32` truncates to 32 bits). -/
def ByteBuffer.putU32 (b : ByteBuffer) (v : Nat) (index : Option Nat) :
    Option ByteBuffer :=
  match useDataView b 4 index with
  | none => none
  | some (b', pos) =>
      some { b' with
             data := writeBytes b'.data pos (if b.littleEndian then le32 v else be32 v) }

/-- `ByteBuffer.putI32`: the source calls `setInt32` without the endianness
flag, so the store is always big-endian two's complement. -/
def ByteBuffer.putI32 (b : ByteBuffer) (v : Int) (index : Option Nat) :
    Option ByteBuffer :=
  match useDataView b 4 index with
  | none => none
  | some (b', pos) =>
      some { b' with
             data := writeBytes b'.data pos (be32 (v % 2 ^ 32).toNat) }

/-- `ByteBuffer.putU64`: splits into `Math.floor(v / 2^32)` and `v >>> 0`,
writes both halves through `useDataView(8)` — which already advances the
cursor when no index is given — and then advances the cursor by 8 again
with the trailing `bytesUsed(8)` call. -/
def ByteBuffer.putU64 (b : ByteBuffer) (v : Nat) (index : Option Nat) :
    Option ByteBuffer :=
  let hi := v / 2 ^ 32
  let lo := v % 2 ^ 32
  match useDataView b 8 index with
  | none => none
  | some (b', pos) =>
      some { b' with
             data := writeBytes b'.data pos
               (if b.littleEndian then le32 lo ++ le32 hi else be32 hi ++ be32 lo),
             position := b'.position + 8 }

/-- `ByteBuffer.putUtf8Raw` for the ASCII strings the emitter writes (box
types, brands, handler names): one byte per character; the limit is not
updated (`bytesUsed` alone); a partial write throws after the fact. -/
def ByteBuffer.putUtf8Raw (b : ByteBuffer) (s : String) : Option ByteBuffer :=
  let bs := s.data.map Char.toNat
  if b.position + bs.length ≤ b.data.length then
    some { b with
           data := writeBytes b.data b.position bs,
           position := b.position + bs.length }
  else none

/-- `putBox`: write a zero length placeholder and the 4-character type, run
the body, then patch the big-endian 32-bit length
`getPosition() - payloadLenPosition` at the start of the box. -/
def putBox (b : ByteBuffer) (ty : String)
    (write : ByteBuffer → Option ByteBuffer) : Option ByteBuffer :=
  let payloadLenPosition := b.position
  match b.putU32 0 none with
  | none => none
  | some b1 =>
      if ty.length = 4 then
        match b1.putUtf8Raw ty with
        | none => none
        | some b2 =>
            match write b2 with
            | none => none
            | some b3 =>
                b3.putU32 (b3.position - payloadLenPosition) (some payloadLenPosition)
      else none

/-- The `version(u8) | flags(u24)` header written by `putFullBox` before the
box body. -/
def fullBoxWriter (version flags : Nat) (w : ByteBuffer → Option ByteBuffer) :
    ByteBuffer → Option ByteBuffer := fun bb =>
  match bb.putU8 version none with
  | none => none
  | some b1 =>
      match b1.putU8 (flags / 2 ^ 16 % 256) none with
      | none => none
      | some b2 =>
          match b2.putU8 (flags / 2 ^ 8 % 256) none with
          | none => none
          | some b3 =>
              match b3.putU8 (flags % 256) none with
              | none => none
              | some b4 => w b4

/-- `putFullBox` with its version/flags range guards. -/
def putFullBox (b : ByteBuffer) (ty : String) (version flags : Nat)
    (w : ByteBuffer → Option ByteBuffer) : Option ByteBuffer :=
  if version ≤ 0xff then
    if flags ≤ 0xffffff then putBox b ty (fullBoxWriter version flags w)
    else none
  else none

/-- The payload of `putTfdtBox`: a u64 base decode time for version 1, a
u32 for version 0, a throw otherwise. -/
def tfdtPayloadWriter (version baseDecodeTime : Nat) :
    ByteBuffer → Option ByteBuffer := fun bb =>
  if version = 1 then bb.putU64 baseDecodeTime none
  else if version = 0 then bb.putU32 baseDecodeTime none
  else none

/-- `putTfdtBox`. -/
def putTfdtBox (b : ByteBuffer) (version baseDecodeTime : Nat) : Option ByteBuffer :=
  putFullBox b "tfdt" version 0 (tfdtPayloadWriter version baseDecodeTime)

end MoonlightStream

namespace MoonlightStream

theorem be32_length (n : Nat) : (be32 n).length = 4 := rfl

theorem le32_length (n : Nat) : (le32 n).length = 4 := rfl

theorem useDataView_spec (b : ByteBuffer) (len : Nat) (index : Option Nat)
    (r : ByteBuffer × Nat) (h : useDataView b len index = some r) :
    r.1.position = (if index.isSome then b.position else b.position + len) ∧
    r.1.data = b.data ∧ r.1.littleEndian = b.littleEndian ∧
    r.2 = index.getD b.position ∧ r.2 + len ≤ b.data.length := by
  unfold useDataView at h
  dsimp only at h
  cases index with
  | none =>
      simp only [Option.getD_none, Option.isSome_none, Bool.false_eq_true,
        if_false] at h ⊢
      split_ifs at h with hcond
      cases h
      exact ⟨rfl, rfl, rfl, rfl, hcond⟩
  | some i =>
      simp only [Option.getD_some, Option.isSome_some, if_true] at h ⊢
      split_ifs at h with hcond
      cases h
      exact ⟨rfl, rfl, rfl, rfl, hcond⟩

theorem putU8_spec (b : ByteBuffer) (v : Nat) (index : Option Nat)
    (b' : ByteBuffer) (h : b.putU8 v index = some b') :
    b'.position = (if index.isSome then b.position else b.position + 1) ∧
    b'.data.length = b.data.length ∧ b'.littleEndian = b.littleEndian := by
  unfold ByteBuffer.putU8 at h
  cases hu : useDataView b 1 index with
  | none => rw [hu] at h; exact absurd h (by simp)
  | some r =>
      rw [hu] at h
      obtain ⟨hpos, hdata, hle, hwr, hbound⟩ := useDataView_spec b 1 index r hu
      cases h
      refine ⟨hpos, ?_, hle⟩
      show (writeBytes r.1.data r.2 [v % 256]).length = b.data.length
      rw [hdata]
      exact writeBytes_length _ _ _ (by simpa using hbound)

theorem putU32_spec (b : ByteBuffer) (v : Nat) (index : Option Nat)
    (b' : ByteBuffer) (h : b.putU32 v index = some b') :
    b'.position = (if index.isSome then b.position else b.position + 4) ∧
    b'.data.length = b.data.length ∧ b'.littleEndian = b.littleEndian ∧
    (index.getD b.position) + 4 ≤ b.data.length := by
  unfold ByteBuffer.putU32 at h
  cases hu : useDataView b 4 index with
  | none => rw [hu] at h; exact absurd h (by simp)
  | some r =>
      rw [hu] at h
      obtain ⟨hpos, hdata, hle, hwr, hbound⟩ := useDataView_spec b 4 index r hu
      cases h
      refine ⟨hpos, ?_, hle, by rw [← hwr]; exact hbound⟩
      show (writeBytes r.1.data r.2 _).length = b.data.length
      rw [hdata]
      refine writeBytes_length _ _ _ ?_
      have hlen4 : (if b.littleEndian then le32 v else be32 v).length = 4 := by
        split <;> rfl
      rw [hlen4]
      omega

theorem putU64_spec (b : ByteBuffer) (v : Nat) (index : Option Nat)
    (b' : ByteBuffer) (h : b.putU64 v index = some b') :
    b'.position = (if index.isSome then b.position else b.position + 8) + 8 ∧
    b'.data.length = b.data.length ∧ b'.littleEndian = b.littleEndian := by
  unfold ByteBuffer.putU64 at h
  cases hu : useDataView b 8 index with
  | none => rw [hu] at h; exact absurd h (by simp)
  | some r =>
      rw [hu] at h
      obtain ⟨hpos, hdata, hle, hwr, hbound⟩ := useDataView_spec b 8 index r hu
      cases h
      refine ⟨by rw [hpos], ?_, hle⟩
      show (writeBytes r.1.data r.2 _).length = b.data.length
      rw [hdata]
      refine writeBytes_length _ _ _ ?_
      have hlen8 : (if b.littleEndian then le32 (v % 2 ^ 32) ++ le32 (v / 2 ^ 32)
          else be32 (v / 2 ^ 32) ++ be32 (v % 2 ^ 32)).length = 8 := by
        split <;> rfl
      rw [hlen8]
      omega

theorem putUtf8Raw_spec (b : ByteBuffer) (s : String) (b' : ByteBuffer)
    (h : b.putUtf8Raw s = some b') :
    b'.position = b.position + s.length ∧
    b'.data.length = b.data.length ∧ b'.littleEndian = b.littleEndian ∧
    b.position + s.length ≤ b.data.length := by
  unfold ByteBuffer.putUtf8Raw at h
  dsimp only at h
  have hmap : (s.data.map Char.toNat).length = s.length := by
    rw [List.length_map]
    rfl
  rw [hmap] at h
  split_ifs at h with hcond
  cases h
  refine ⟨rfl, ?_, rfl, hcond⟩
  show (writeBytes b.data b.position (s.data.map Char.toNat)).length = b.data.length
  refine writeBytes_length _ _ _ ?_
  rw [hmap]
  omega

/-- A box body only moves the cursor forward and preserves the capacity and
endianness of the buffer (all the emitters' writers do). -/
def writerOk (w : ByteBuffer → Option ByteBuffer) : Prop :=
  ∀ b b', w b = some b' →
    b.position ≤ b'.position ∧ b'.data.length = b.data.length ∧
      b'.littleEndian = b.littleEndian

theorem writerOk_putU8 (v : Nat) : writerOk (fun b => b.putU8 v none) := by
  intro b b' h
  obtain ⟨h1, h2, h3⟩ := putU8_spec b v none b' h
  simp at h1
  exact ⟨by omega, h2, h3⟩

theorem writerOk_putU32 (v : Nat) : writerOk (fun b => b.putU32 v none) := by
  intro b b' h
  obtain ⟨h1, h2, h3, -⟩ := putU32_spec b v none b' h
  simp at h1
  exact ⟨by omega, h2, h3⟩

theorem writerOk_putU64 (v : Nat) : writerOk (fun b => b.putU64 v none) := by
  intro b b' h
  obtain ⟨h1, h2, h3⟩ := putU64_spec b v none b' h
  simp at h1
  exact ⟨by omega, h2, h3⟩

theorem writerOk_fullBoxWriter (version flags : Nat)
    (w : ByteBuffer → Option ByteBuffer) (hw : writerOk w) :
    writerOk (fullBoxWriter version flags w) := by
  intro b b' h
  unfold fullBoxWriter at h
  cases h1 : b.putU8 version none with
  | none => rw [h1] at h; exact absurd h (by simp)
  | some b1 =>
  rw [h1] at h
  dsimp only at h
  cases h2 : b1.putU8 (flags / 2 ^ 16 % 256) none with
  | none => rw [h2] at h; exact absurd h (by simp)
  | some b2 =>
  rw [h2] at h
  dsimp only at h
  cases h3 : b2.putU8 (flags / 2 ^ 8 % 256) none with
  | none => rw [h3] at h; exact absurd h (by simp)
  | some b3 =>
  rw [h3] at h
  dsimp only at h
  cases h4 : b3.putU8 (flags % 256) none with
  | none => rw [h4] at h; exact absurd h (by simp)
  | some b4 =>
  rw [h4] at h
  dsimp only at h
  obtain ⟨p1, l1, e1⟩ := writerOk_putU8 version b b1 h1
  obtain ⟨p2, l2, e2⟩ := writerOk_putU8 _ b1 b2 h2
  obtain ⟨p3, l3, e3⟩ := writerOk_putU8 _ b2 b3 h3
  obtain ⟨p4, l4, e4⟩ := writerOk_putU8 _ b3 b4 h4
  obtain ⟨p5, l5, e5⟩ := hw b4 b' h
  refine ⟨by omega, by omega, ?_⟩
  rw [e5, e4, e3, e2, e1]

theorem writerOk_tfdtPayloadWriter (version bdt : Nat) :
    writerOk (tfdtPayloadWriter version bdt) := by
  intro b b' h
  unfold tfdtPayloadWriter at h
  split_ifs at h
  · exact writerOk_putU64 bdt b b' h
  · exact writerOk_putU32 bdt b b' h

/-- C6: the 32-bit big-endian length field `putBox` patches at the box's
first byte equals the number of bytes the box occupies in the output — the
cursor distance from the box start to the position after the body, 8-byte
header included; this covers every emitted box, in particular those whose
payload is written through `ByteBuffer.putU64` (the version-1 `tfdt`),
because the patched value is read off the final cursor. -/
theorem C6_box_length_field (b : ByteBuffer) (ty : String)
    (w : ByteBuffer → Option ByteBuffer) (b' : ByteBuffer)
    (hle : b.littleEndian = false) (hw : writerOk w)
    (hput : putBox b ty w = some b') :
    b.position + 8 ≤ b'.position ∧
    b'.data.length = b.data.length ∧
    (b'.data.drop b.position).take 4 = be32 (b'.position - b.position) := by
  unfold putBox at hput
  dsimp only at hput
  cases h1 : b.putU32 0 none with
  | none => rw [h1] at hput; exact absurd hput (by simp)
  | some b1 =>
  rw [h1] at hput
  dsimp only at hput
  by_cases hty : ty.length = 4
  case neg => rw [if_neg hty] at hput; exact absurd hput (by simp)
  rw [if_pos hty] at hput
  cases h2 : b1.putUtf8Raw ty with
  | none => rw [h2] at hput; exact absurd hput (by simp)
  | some b2 =>
  rw [h2] at hput
  dsimp only at hput
  cases h3 : w b2 with
  | none => rw [h3] at hput; exact absurd hput (by simp)
  | some b3 =>
  rw [h3] at hput
  dsimp only at hput
  obtain ⟨p1, l1, e1, bound1⟩ := putU32_spec b 0 none b1 h1
  simp at p1 bound1
  obtain ⟨p2, l2, e2, -⟩ := putUtf8Raw_spec b1 ty b2 h2
  obtain ⟨p3, l3, e3⟩ := hw b2 b3 h3
  -- the patch write itself
  unfold ByteBuffer.putU32 at hput
  cases hu : useDataView b3 4 (some b.position) with
  | none =>
      rw [hu] at hput
      exact absurd hput (by simp)
  | some r =>
      rw [hu] at hput
      obtain ⟨hpos, hdata, hle', hwr, hbound⟩ := useDataView_spec b3 4 _ r hu
      simp at hpos hwr
      cases hput
      have hposb : b.position + 8 ≤ b3.position := by
        rw [hty] at p2
        omega
      have hlen : b.position + 4 ≤ b3.data.length := by
        rw [l3, l2, l1]
        omega
      have hlefalse : b3.littleEndian = false := by
        rw [e3, e2, e1, hle]
      constructor
      · rw [hpos]
        exact hposb
      have hb4 : (if b3.littleEndian = true then le32 (b3.position - b.position)
          else be32 (b3.position - b.position)).length = 4 := by
        split <;> rfl
      constructor
      · show (writeBytes r.1.data r.2 _).length = b.data.length
        rw [writeBytes_length _ _ _ (by rw [hdata, hwr, hb4]; omega),
          hdata, l3, l2, l1]
      · rw [hpos, hwr, hdata, hlefalse]
        simp only [Bool.false_eq_true, if_false]
        have := readBytes_writeBytes b3.data b.position
          (be32 (b3.position - b.position)) (by omega)
        rw [be32_length] at this
        exact this

end MoonlightStream

namespace MoonlightStream

/-- C10 (implicit): `ByteBuffer.putU64` with no explicit index advances the
cursor by 16 although only 8 payload bytes are written — once inside
`useDataView` and once more by the trailing `bytesUsed(8)` — so the 8 bytes
after the value are left untouched (zero in a fresh buffer) and separate it
from the next write; with an explicit index the cursor still advances by 8
even though the write is positional. -/
theorem C10_putU64_double_advance :
    (∀ (b : ByteBuffer) (v : Nat) (b' : ByteBuffer),
        b.putU64 v none = some b' →
        b'.position = b.position + 16 ∧
        b'.data.drop (b.position + 8) = b.data.drop (b.position + 8) ∧
        (b.littleEndian = false →
          (b'.data.drop b.position).take 8
            = be32 (v / 2 ^ 32) ++ be32 (v % 2 ^ 32))) ∧
    (∀ (b : ByteBuffer) (v i : Nat) (b' : ByteBuffer),
        b.putU64 v (some i) = some b' → b'.position = b.position + 8) := by
  constructor
  · intro b v b' h
    unfold ByteBuffer.putU64 at h
    dsimp only at h
    cases hu : useDataView b 8 none with
    | none => rw [hu] at h; exact absurd h (by simp)
    | some r =>
        rw [hu] at h
        obtain ⟨hpos, hdata, hle, hwr, hbound⟩ := useDataView_spec b 8 none r hu
        simp only [Option.isSome_none, Bool.false_eq_true, if_false] at hpos
        simp only [Option.getD_none] at hwr
        cases h
        have hb8 : (if b.littleEndian = true
            then le32 (v % 2 ^ 32) ++ le32 (v / 2 ^ 32)
            else be32 (v / 2 ^ 32) ++ be32 (v % 2 ^ 32)).length = 8 := by
          split <;> rfl
        refine ⟨by dsimp only; omega, ?_, ?_⟩
        · show (writeBytes r.1.data r.2 _).drop (b.position + 8)
            = b.data.drop (b.position + 8)
          rw [hdata, hwr, show b.position + 8
              = b.position + (if b.littleEndian = true
                then le32 (v % 2 ^ 32) ++ le32 (v / 2 ^ 32)
                else be32 (v / 2 ^ 32) ++ be32 (v % 2 ^ 32)).length from by
              rw [hb8]]
          exact drop_writeBytes _ _ _ (by omega)
        · intro hlef
          show ((writeBytes r.1.data r.2 _).drop b.position).take 8
            = be32 (v / 2 ^ 32) ++ be32 (v % 2 ^ 32)
          rw [hdata, hwr, hlef]
          simp only [Bool.false_eq_true, if_false]
          have := readBytes_writeBytes b.data b.position
            (be32 (v / 2 ^ 32) ++ be32 (v % 2 ^ 32)) (by omega)
          rw [show (be32 (v / 2 ^ 32) ++ be32 (v % 2 ^ 32)).length = 8 from rfl]
            at this
          exact this
  · intro b v i b' h
    unfold ByteBuffer.putU64 at h
    dsimp only at h
    cases hu : useDataView b 8 (some i) with
    | none => rw [hu] at h; exact absurd h (by simp)
    | some r =>
        rw [hu] at h
        obtain ⟨hpos, -, -, -, -⟩ := useDataView_spec b 8 (some i) r hu
        simp only [Option.isSome_some, if_true] at hpos
        cases h
        dsimp only
        omega

def c10Out : ByteBuffer :=
  { position := 16, limit := 32, littleEndian := false,
    data := [0, 0, 0, 1, 0, 0, 0, 5] ++ List.replicate 24 0 }

def c10OutIdx : ByteBuffer :=
  { position := 8, limit := 32, littleEndian := false,
    data := [0, 0, 0, 1, 0, 0, 0, 5] ++ List.replicate 24 0 }

/-- Witness for C10: writing `2^32 + 5` into a fresh 32-byte buffer. -/
theorem C10_putU64_double_advance_witness :
    (mkByteBuffer 32 false).putU64 4294967301 none = some c10Out ∧
    c10Out.position = (mkByteBuffer 32 false).position + 16 ∧
    c10Out.data.drop ((mkByteBuffer 32 false).position + 8)
      = (mkByteBuffer 32 false).data.drop ((mkByteBuffer 32 false).position + 8) ∧
    (c10Out.data.drop (mkByteBuffer 32 false).position).take 8
      = be32 (4294967301 / 2 ^ 32) ++ be32 (4294967301 % 2 ^ 32) ∧
    (mkByteBuffer 32 false).putU64 4294967301 (some 0) = some c10OutIdx ∧
    c10OutIdx.position = (mkByteBuffer 32 false).position + 8 := by
  refine ⟨by decide, ?_, ?_, ?_, by decide, ?_⟩
  · exact (C10_putU64_double_advance.1 (mkByteBuffer 32 false) 4294967301 c10Out
      (by decide)).1
  · exact (C10_putU64_double_advance.1 (mkByteBuffer 32 false) 4294967301 c10Out
      (by decide)).2.1
  · exact (C10_putU64_double_advance.1 (mkByteBuffer 32 false) 4294967301 c10Out
      (by decide)).2.2 rfl
  · exact C10_putU64_double_advance.2 (mkByteBuffer 32 false) 4294967301 0 c10OutIdx
      (by decide)

def c6Out : ByteBuffer :=
  { position := 28, limit := 100, littleEndian := false,
    data := [0, 0, 0, 28, 116, 102, 100, 116, 1, 0, 0, 0, 0, 0, 0, 0, 0, 0, 0, 5]
      ++ List.replicate 80 0 }

/-- Witness for C6: a version-1 `tfdt` box written into a fresh buffer; its
patched length field is 28, the exact span the box occupies (the `putU64`
double-advance included). -/
theorem C6_box_length_field_witness :
    putTfdtBox (mkByteBuffer 100 false) 1 5 = some c6Out ∧
    putBox (mkByteBuffer 100 false) "tfdt"
      (fullBoxWriter 1 0 (tfdtPayloadWriter 1 5)) = some c6Out ∧
    ((mkByteBuffer 100 false).position + 8 ≤ c6Out.position ∧
     c6Out.data.length = (mkByteBuffer 100 false).data.length ∧
     (c6Out.data.drop (mkByteBuffer 100 false).position).take 4
       = be32 (c6Out.position - (mkByteBuffer 100 false).position)) :=
  ⟨by decide, by decide,
   C6_box_length_field (mkByteBuffer 100 false) "tfdt"
     (fullBoxWriter 1 0 (tfdtPayloadWriter 1 5)) c6Out rfl
     (writerOk_fullBoxWriter 1 0 _ (writerOk_tfdtPayloadWriter 1 5))
     (by decide)⟩

end MoonlightStream

namespace MoonlightStream

/-! ### JavaScript number arithmetic

Timestamps and rates are JavaScript numbers; in the scenarios of the spec
they take exact rational values, so they are modelled as `ℚ`.  The
arithmetic is spelled out on numerators and denominators (through `mkRat`)
so that the kernel can evaluate concrete runs; the `*_eq`/`*_iff` bridges
identify each operation with the corresponding `ℚ` operation. -/

def jsAdd (a b : ℚ) : ℚ := mkRat (a.num * b.den + b.num * a.den) (a.den * b.den)

def jsSub (a b : ℚ) : ℚ := mkRat (a.num * b.den - b.num * a.den) (a.den * b.den)

def jsMul (a b : ℚ) : ℚ := mkRat (a.num * b.num) (a.den * b.den)

def jsDiv (a b : ℚ) : ℚ :=
  if b.num < 0 then mkRat (-(a.num * b.den)) (a.den * (-b.num).toNat)
  else mkRat (a.num * b.den) (a.den * b.num.toNat)

def jsLe (a b : ℚ) : Bool := decide (a.num * b.den ≤ b.num * a.den)

def jsLt (a b : ℚ) : Bool := decide (a.num * b.den < b.num * a.den)

theorem jsAdd_eq (a b : ℚ) : jsAdd a b = a + b := by
  have ha : ((a.den : ℤ) : ℚ) ≠ 0 := by
    exact_mod_cast Nat.cast_ne_zero.mpr a.den_nz
  have hb : ((b.den : ℤ) : ℚ) ≠ 0 := by
    exact_mod_cast Nat.cast_ne_zero.mpr b.den_nz
  rw [jsAdd, Rat.mkRat_eq_divInt, Rat.divInt_eq_div]
  conv_rhs => rw [← Rat.num_div_den a, ← Rat.num_div_den b]
  push_cast
  rw [div_add_div _ _ (by exact_mod_cast ha) (by exact_mod_cast hb)]
  ring_nf

theorem jsSub_eq (a b : ℚ) : jsSub a b = a - b := by
  have ha : ((a.den : ℤ) : ℚ) ≠ 0 := by
    exact_mod_cast Nat.cast_ne_zero.mpr a.den_nz
  have hb : ((b.den : ℤ) : ℚ) ≠ 0 := by
    exact_mod_cast Nat.cast_ne_zero.mpr b.den_nz
  rw [jsSub, Rat.mkRat_eq_divInt, Rat.divInt_eq_div]
  conv_rhs => rw [← Rat.num_div_den a, ← Rat.num_div_den b]
  push_cast
  rw [div_sub_div _ _ (by exact_mod_cast ha) (by exact_mod_cast hb)]
  ring_nf

theorem jsMul_eq (a b : ℚ) : jsMul a b = a * b := by
  have ha : ((a.den : ℤ) : ℚ) ≠ 0 := by
    exact_mod_cast Nat.cast_ne_zero.mpr a.den_nz
  have hb : ((b.den : ℤ) : ℚ) ≠ 0 := by
    exact_mod_cast Nat.cast_ne_zero.mpr b.den_nz
  rw [jsMul, Rat.mkRat_eq_divInt, Rat.divInt_eq_div]
  conv_rhs => rw [← Rat.num_div_den a, ← Rat.num_div_den b]
  push_cast
  rw [div_mul_div_comm]

theorem jsDiv_eq (a b : ℚ) (hb : b ≠ 0) : jsDiv a b = a / b := by
  have hbn : b.num ≠ 0 := Rat.num_ne_zero.mpr hb
  have ha : ((a.den : ℚ)) ≠ 0 := by exact_mod_cast a.den_nz
  have hb2 : ((b.den : ℚ)) ≠ 0 := by exact_mod_cast b.den_nz
  have hb3 : ((b.num : ℚ)) ≠ 0 := by exact_mod_cast hbn
  rw [jsDiv]
  split_ifs with hneg
  · rw [Rat.mkRat_eq_divInt, Rat.divInt_eq_div]
    conv_rhs => rw [← Rat.num_div_den a, ← Rat.num_div_den b]
    have hcast : ((a.den * (-b.num).toNat : ℕ) : ℤ) = (a.den : ℤ) * (-b.num) := by
      push_cast [Int.toNat_of_nonneg (by omega : (0:ℤ) ≤ -b.num)]
      ring
    rw [hcast]
    push_cast
    field_simp
  · rw [Rat.mkRat_eq_divInt, Rat.divInt_eq_div]
    conv_rhs => rw [← Rat.num_div_den a, ← Rat.num_div_den b]
    have hcast : ((a.den * b.num.toNat : ℕ) : ℤ) = (a.den : ℤ) * b.num := by
      push_cast [Int.toNat_of_nonneg (by omega : (0:ℤ) ≤ b.num)]
      ring
    rw [hcast]
    push_cast
    field_simp

theorem jsLe_iff (a b : ℚ) : jsLe a b = true ↔ a ≤ b := by
  rw [jsLe, decide_eq_true_iff]
  have ha : (0 : ℚ) < (a.den : ℚ) := by exact_mod_cast Nat.pos_of_ne_zero a.den_nz
  have hb : (0 : ℚ) < (b.den : ℚ) := by exact_mod_cast Nat.pos_of_ne_zero b.den_nz
  conv_rhs => rw [← Rat.num_div_den a, ← Rat.num_div_den b]
  rw [div_le_div_iff₀ ha hb]
  exact_mod_cast Iff.rfl

theorem jsLt_iff (a b : ℚ) : jsLt a b = true ↔ a < b := by
  rw [jsLt, decide_eq_true_iff]
  have ha : (0 : ℚ) < (a.den : ℚ) := by exact_mod_cast Nat.pos_of_ne_zero a.den_nz
  have hb : (0 : ℚ) < (b.den : ℚ) := by exact_mod_cast Nat.pos_of_ne_zero b.den_nz
  conv_rhs => rw [← Rat.num_div_den a, ← Rat.num_div_den b]
  rw [div_lt_div_iff₀ ha hb]
  exact_mod_cast Iff.rfl

/-- JavaScript `Math.trunc` / the rounding step of `ToUint32`
(truncation toward zero). -/
def jsTrunc (v : ℚ) : Int := v.num.tdiv v.den

/-- JavaScript `x >>> 0` / `DataView.setUint32` coercion. -/
def jsToUint32 (v : ℚ) : Nat := ((jsTrunc v) % (4294967296 : Int)).toNat

/-- The u64 actually encoded by `ByteBuffer.putU64` for a (possibly
fractional) JavaScript number: `hi = Math.floor(v / 2^32)` and
`lo = v >>> 0`, each stored through `setUint32`. -/
def putU64StoredValue (v : ℚ) : Nat :=
  ((⌊jsDiv v 4294967296⌋ % (4294967296 : Int)).toNat) * 4294967296 + jsToUint32 v

end MoonlightStream

namespace MoonlightStream

/-! ### `MediaSourceDecoder` (media_source.ts)

The decoder owns an `H264StreamVideoTranslator`, repairs timestamps, and
pushes fMP4 segments to `this.buffers`.  A pushed segment is modelled by
the parameters of `putVideoInitSegment` / `putVideoFrameSegment`; the
byte-level box layout those helpers produce is modelled by the
`ByteBuffer` section. -/

inductive MseSegment where
  | initSeg (codec : String) (description : Bytes)
  | frameSeg (sequenceNumber : Int) (baseDecodeTime : ℚ) (frameDuration : ℚ)
      (isKeyframe : Bool) (frame : Bytes)
  deriving Repr, DecidableEq

/-- `putVideoFrameSegment` throws when a keyframe's fifth byte (the first
byte after the 4-byte length prefix) is not an IDR NAL header; a read past
the end yields `undefined`, which `h264NalType` maps to 0. -/
def putVideoFrameSegmentEv (sequenceNumber : Int) (baseDecodeTime : ℚ)
    (frameDuration : ℚ) (isKeyframe : Bool) (frame : Bytes) :
    Option MseSegment :=
  if isKeyframe && !(h264NalType (frame.getD 4 0) == 5) then none
  else some (.frameSeg sequenceNumber baseDecodeTime frameDuration isKeyframe frame)

structure MseState where
  errored : Bool
  translator : H264TState
  expectedDurationMicroseconds : ℚ
  videoSize : Option (Nat × Nat)
  needIdr : Bool
  droppedFrames : Nat
  timestampMicrosecondsShift : ℚ
  lastTimestampMicroseconds : ℚ
  sequenceNumber : Int
  deriving Repr, DecidableEq

/-- A freshly constructed `MediaSourceDecoder` after `setup` ran with the
given stream parameters (`expectedDurationMicroseconds = 1_000_000 / fps`,
`videoSize = [width, height]`). -/
def mseSetup (fps : ℚ) (width height : Nat) : MseState :=
  { errored := false, translator := h264Init,
    expectedDurationMicroseconds := jsDiv 1000000 fps,
    videoSize := some (width, height), needIdr := true, droppedFrames := 0,
    timestampMicrosecondsShift := 0, lastTimestampMicroseconds := 0,
    sequenceNumber := -1 }

/-- The repaired timestamp: `timestampMicroseconds - shift`, bumped to
`last + expectedDuration` when it does not exceed `last`. -/
def repairTs (last shift dur ts : ℚ) : ℚ :=
  if jsLe (jsSub ts shift) last then jsAdd last dur else jsSub ts shift

theorem repairTs_eq (last shift dur ts : ℚ) :
    repairTs last shift dur ts =
      if ts - shift ≤ last then last + dur else ts - shift := by
  simp only [repairTs, jsSub_eq, jsAdd_eq]
  by_cases h : ts - shift ≤ last
  · rw [if_pos ((jsLe_iff _ _).mpr h), if_pos h]
  · rw [if_neg (fun hc => h ((jsLe_iff _ _).mp hc)), if_neg h]

/-- `MediaSourceDecoder.submitDecodeUnit`.  Returns `none` when the source
would propagate an exception out of the call (a translator parse throw, or
`putVideoFrameSegment`'s non-IDR-keyframe throw); otherwise the updated
state and the segments pushed to `this.buffers` by this call. -/
def mseSubmitDecodeUnit (st : MseState) (unit : VideoDecodeUnit) :
    Option (MseState × List MseSegment) :=
  if st.errored then some (st, [])
  else
    match h264Submit st.translator unit with
    | (_, none) => none
    | (tr, some value) =>
      let st₁ := { st with translator := tr }
      match value.chunk with
      | none => some (st₁, [])
      | some chunk =>
        let ts := repairTs st₁.lastTimestampMicroseconds
          st₁.timestampMicrosecondsShift st₁.expectedDurationMicroseconds
          unit.timestampMicroseconds
        let dur := jsSub ts st₁.lastTimestampMicroseconds
        let st₂ := { st₁ with lastTimestampMicroseconds := ts }
        match value.configure with
        | some configure =>
          match configure.description with
          | none => some ({ st₂ with errored := true }, [])
          | some description =>
            match st₂.videoSize with
            | none => some ({ st₂ with errored := true }, [])
            | some _ =>
              let st₃ := { st₂ with
                timestampMicrosecondsShift := unit.timestampMicroseconds,
                lastTimestampMicroseconds := 0,
                sequenceNumber := 1 }
              match putVideoFrameSegmentEv st₃.sequenceNumber 0 dur true chunk with
              | none => none
              | some seg =>
                some ({ st₃ with needIdr := false, droppedFrames := 0 },
                  [MseSegment.initSeg configure.codec description, seg])
        | none =>
          if st₂.needIdr then
            some ({ st₂ with droppedFrames := st₂.droppedFrames + 1 }, [])
          else
            let st₃ := { st₂ with sequenceNumber := st₂.sequenceNumber + 1 }
            match putVideoFrameSegmentEv st₃.sequenceNumber ts dur false chunk with
            | none => none
            | some seg => some (st₃, [seg])

/-- Submitting a list of units in order, collecting the pushed segments. -/
def mseRun (st : MseState) : List VideoDecodeUnit → Option (MseState × List MseSegment)
  | [] => some (st, [])
  | u :: us =>
    match mseSubmitDecodeUnit st u with
    | none => none
    | some (st₁, segs₁) =>
      match mseRun st₁ us with
      | none => none
      | some (st₂, segs₂) => some (st₂, segs₁ ++ segs₂)

/-- The tfdt base decode times of the frame segments, in order. -/
def frameBaseDecodeTimes (segs : List MseSegment) : List ℚ :=
  segs.filterMap fun s => match s with
    | .frameSeg _ bdt _ _ _ => some bdt
    | _ => none

/-- The mfhd sequence numbers of the frame segments, in order. -/
def segSequenceNumbers (segs : List MseSegment) : List Int :=
  segs.filterMap fun s => match s with
    | .frameSeg n _ _ _ _ => some n
    | _ => none

/-- A delta step: not errored, not waiting for an IDR, and the translator
passes the unit through without reconfiguring.  One frame segment is
pushed, with the next sequence number and the repaired timestamp. -/
theorem mse_delta_step (st : MseState) (u : VideoDecodeUnit)
    (tr : H264TState) (chunk : Bytes)
    (herr : st.errored = false) (hneed : st.needIdr = false)
    (hsub : h264Submit st.translator u
      = (tr, some { configure := none, chunk := some chunk })) :
    mseSubmitDecodeUnit st u =
      some ({ st with
          translator := tr,
          lastTimestampMicroseconds :=
            repairTs st.lastTimestampMicroseconds
              st.timestampMicrosecondsShift
              st.expectedDurationMicroseconds u.timestampMicroseconds,
          sequenceNumber := st.sequenceNumber + 1 },
        [MseSegment.frameSeg (st.sequenceNumber + 1)
          (repairTs st.lastTimestampMicroseconds st.timestampMicrosecondsShift
            st.expectedDurationMicroseconds u.timestampMicroseconds)
          (jsSub
            (repairTs st.lastTimestampMicroseconds st.timestampMicrosecondsShift
              st.expectedDurationMicroseconds u.timestampMicroseconds)
            st.lastTimestampMicroseconds)
          false chunk]) := by
  unfold mseSubmitDecodeUnit
  rw [herr]
  simp only [Bool.false_eq_true, if_false]
  rw [hsub]
  dsimp only
  rw [hneed]
  simp only [Bool.false_eq_true, if_false, putVideoFrameSegmentEv, Bool.false_and]

/-- A configure step: the translator reconfigures with a description and a
chunk whose first NAL is an IDR.  The timebase is re-zeroed, the sequence
number restarts at 1, and an init segment plus the IDR frame segment (at
base decode time 0) are pushed. -/
theorem mse_configure_step (st : MseState) (u : VideoDecodeUnit)
    (tr : H264TState) (cfg : VideoDecoderConfig) (desc chunk : Bytes)
    (wh : Nat × Nat)
    (herr : st.errored = false)
    (hsub : h264Submit st.translator u
      = (tr, some { configure := some cfg, chunk := some chunk }))
    (hdesc : cfg.description = some desc)
    (hvs : st.videoSize = some wh)
    (hidr : h264NalType (chunk.getD 4 0) = 5) :
    mseSubmitDecodeUnit st u =
      some ({ st with
          translator := tr,
          timestampMicrosecondsShift := u.timestampMicroseconds,
          lastTimestampMicroseconds := 0,
          sequenceNumber := 1,
          needIdr := false,
          droppedFrames := 0 },
        [MseSegment.initSeg cfg.codec desc,
         MseSegment.frameSeg 1 0
           (jsSub
             (repairTs st.lastTimestampMicroseconds st.timestampMicrosecondsShift
               st.expectedDurationMicroseconds u.timestampMicroseconds)
             st.lastTimestampMicroseconds)
           true chunk]) := by
  unfold mseSubmitDecodeUnit
  rw [herr]
  simp only [Bool.false_eq_true, if_false]
  rw [hsub]
  dsimp only
  rw [hdesc]
  dsimp only
  rw [hvs]
  dsimp only
  have hseg : putVideoFrameSegmentEv 1 0
      (jsSub
        (repairTs st.lastTimestampMicroseconds st.timestampMicrosecondsShift
          st.expectedDurationMicroseconds u.timestampMicroseconds)
        st.lastTimestampMicroseconds) true chunk
    = some (MseSegment.frameSeg 1 0
        (jsSub
          (repairTs st.lastTimestampMicroseconds st.timestampMicrosecondsShift
            st.expectedDurationMicroseconds u.timestampMicroseconds)
          st.lastTimestampMicroseconds) true chunk) := by
    simp only [putVideoFrameSegmentEv, Bool.true_and]
    rw [hidr]
    simp
  rw [hseg]

end MoonlightStream

namespace MoonlightStream

/-- Scanning a unit holding a single NAL `[sc, body]` whose type is neither
7 nor 8 with the H.264 callbacks: the state is unchanged and the chunk is
the length-prefixed body. -/
theorem h264_scanLoop_singleNal (b : Bool) (body : Bytes) (st : H264TState)
    (h7 : ¬h264NalType (body.getD 0 0) = 7)
    (h8 : ¬h264NalType (body.getD 0 0) = 8)
    (hno : ∀ q < (scBytes b ++ body).length, (scBytes b).length ≤ q →
        scAt (scBytes b ++ body) q = false) :
    scanLoop h264Ops (scBytes b ++ body) st [] 0 0 =
      (st, some (be32 body.length ++ body)) := by
  rw [scanLoop_delimiter_zero]
  rw [scanLoop_skip h264Ops _ st [] _ _ (scBytes b ++ body).length
    (by simp) le_rfl (fun q h1 h2 => hno q h2 h1)]
  rw [scanLoop_stop h264Ops _ st [] _ _ le_rfl]
  have hon : h264Ops.onChunkUnit st body = (st, some true) := by
    simp only [h264Ops, h264OnChunkUnit]
    rw [if_neg h7, if_neg h8]
  have hdec : scBytes b ++ body = scBytes b ++ (body ++ []) := by simp
  rw [hdec, handleStartCode_slice_keep h264Ops (scBytes b) body [] st st [] _ _
    rfl (by simp) hon]
  simp

/-- `H264StreamVideoTranslator.submitDecodeUnit` on a unit carrying a single
non-parameter-set NAL, once a description is latched: the translator state
is untouched, no reconfigure is reported, and the chunk is the
length-prefixed body. -/
theorem h264Submit_singleDelta (b : Bool) (body : Bytes) (st : H264TState)
    (u : VideoDecodeUnit)
    (hhd : st.hasDescription = true)
    (hsps : st.sps = none)
    (hdata : u.data = scBytes b ++ body)
    (h7 : ¬h264NalType (body.getD 0 0) = 7)
    (h8 : ¬h264NalType (body.getD 0 0) = 8)
    (hno : ∀ q < (scBytes b ++ body).length, (scBytes b).length ≤ q →
        scAt (scBytes b ++ body) q = false) :
    h264Submit st u =
      (st, some { configure := none, chunk := some (be32 body.length ++ body) }) := by
  unfold h264Submit submitDecodeUnit
  have hstart : h264Ops.startProcessChunk st u.type = true := by
    simp [h264Ops, hhd]
  rw [if_pos hstart, hdata, h264_scanLoop_singleNal b body st h7 h8 hno]
  simp [h264Ops, h264EndChunk, hsps]

/-- A delta unit carrying a single NAL. -/
def simpleDelta (b : Bool) (body : Bytes) (ts : ℚ) : VideoDecodeUnit :=
  { type := UnitType.delta, data := scBytes b ++ body,
    timestampMicroseconds := ts, durationMicroseconds := 0 }

/-- The delta payload carries a single NAL that is not a parameter set and
holds no embedded start-code pattern. -/
def goodDelta (b : Bool) (body : Bytes) : Prop :=
  (¬h264NalType (body.getD 0 0) = 7) ∧ (¬h264NalType (body.getD 0 0) = 8) ∧
    ∀ q < (scBytes b ++ body).length, (scBytes b).length ≤ q →
      scAt (scBytes b ++ body) q = false

instance (b : Bool) (body : Bytes) : Decidable (goodDelta b body) := by
  unfold goodDelta
  infer_instance

/-- The frame segments produced by a sequence of pass-through delta units:
sequence numbers count up from `seq + 1`, each base decode time is the
repaired timestamp, and each duration is the advance of the repaired
clock. -/
def deltaRunSpec (shift dur : ℚ) : ℚ → Int → List (Bool × Bytes × ℚ) → List MseSegment
  | _, _, [] => []
  | last, seq, d :: rest =>
      MseSegment.frameSeg (seq + 1) (repairTs last shift dur d.2.2)
        (jsSub (repairTs last shift dur d.2.2) last) false
        (be32 d.2.1.length ++ d.2.1)
        :: deltaRunSpec shift dur (repairTs last shift dur d.2.2) (seq + 1) rest

/-- The repaired clock after a sequence of delta units. -/
def deltaRunLast (shift dur : ℚ) : ℚ → List (Bool × Bytes × ℚ) → ℚ
  | last, [] => last
  | last, d :: rest => deltaRunLast shift dur (repairTs last shift dur d.2.2) rest

theorem mseRun_deltas (ds : List (Bool × Bytes × ℚ)) (st : MseState)
    (herr : st.errored = false) (hneed : st.needIdr = false)
    (hhd : st.translator.hasDescription = true)
    (hsps : st.translator.sps = none)
    (hgood : ∀ d ∈ ds, goodDelta d.1 d.2.1) :
    mseRun st (ds.map fun d => simpleDelta d.1 d.2.1 d.2.2) =
      some ({ st with
          lastTimestampMicroseconds :=
            deltaRunLast st.timestampMicrosecondsShift
              st.expectedDurationMicroseconds st.lastTimestampMicroseconds ds,
          sequenceNumber := st.sequenceNumber + ds.length },
        deltaRunSpec st.timestampMicrosecondsShift
          st.expectedDurationMicroseconds st.lastTimestampMicroseconds
          st.sequenceNumber ds) := by
  induction ds generalizing st with
  | nil =>
      simp [mseRun, deltaRunSpec, deltaRunLast]
  | cons d rest ih =>
      obtain ⟨hg7, hg8, hgno⟩ := hgood d (List.mem_cons_self d rest)
      have hds : (simpleDelta d.1 d.2.1 d.2.2).data = scBytes d.1 ++ d.2.1 := rfl
      have hsub := h264Submit_singleDelta d.1 d.2.1 st.translator
        (simpleDelta d.1 d.2.1 d.2.2) hhd hsps hds hg7 hg8 hgno
      simp only [List.map_cons, mseRun]
      rw [mse_delta_step st (simpleDelta d.1 d.2.1 d.2.2) st.translator
        (be32 d.2.1.length ++ d.2.1) herr hneed hsub]
      dsimp only
      rw [ih { st with
          translator := st.translator,
          lastTimestampMicroseconds :=
            repairTs st.lastTimestampMicroseconds st.timestampMicrosecondsShift
              st.expectedDurationMicroseconds
              (simpleDelta d.1 d.2.1 d.2.2).timestampMicroseconds,
          sequenceNumber := st.sequenceNumber + 1 }
        herr hneed hhd hsps (fun x hx => hgood x (List.mem_cons_of_mem d hx))]
      simp only [deltaRunSpec, deltaRunLast, List.length_cons, simpleDelta,
        List.singleton_append, Option.some.injEq, Prod.mk.injEq, MseState.mk.injEq,
        List.cons.injEq]
      push_cast
      simp
      omega

end MoonlightStream

namespace MoonlightStream

theorem segSequenceNumbers_frame_cons (n : Int) (bdt dur : ℚ) (k : Bool)
    (f : Bytes) (rest : List MseSegment) :
    segSequenceNumbers (MseSegment.frameSeg n bdt dur k f :: rest)
      = n :: segSequenceNumbers rest := rfl

theorem segSequenceNumbers_init_cons (c : String) (d : Bytes)
    (rest : List MseSegment) :
    segSequenceNumbers (MseSegment.initSeg c d :: rest)
      = segSequenceNumbers rest := rfl

theorem frameBaseDecodeTimes_frame_cons (n : Int) (bdt dur : ℚ) (k : Bool)
    (f : Bytes) (rest : List MseSegment) :
    frameBaseDecodeTimes (MseSegment.frameSeg n bdt dur k f :: rest)
      = bdt :: frameBaseDecodeTimes rest := rfl

theorem frameBaseDecodeTimes_init_cons (c : String) (d : Bytes)
    (rest : List MseSegment) :
    frameBaseDecodeTimes (MseSegment.initSeg c d :: rest)
      = frameBaseDecodeTimes rest := rfl

theorem deltaRunSpec_seqs (shift dur : ℚ) (ds : List (Bool × Bytes × ℚ)) :
    ∀ (last : ℚ) (seq : Int),
      segSequenceNumbers (deltaRunSpec shift dur last seq ds)
        = (List.range ds.length).map (fun i : Nat => seq + 1 + (i : Int)) := by
  induction ds with
  | nil => intro last seq; rfl
  | cons d rest ih =>
      intro last seq
      have hfun : (fun i : ℕ => seq + 1 + ((i + 1 : ℕ) : Int))
          = fun i : ℕ => seq + 1 + 1 + (i : Int) := by
        funext i
        push_cast
        ring
      simp only [deltaRunSpec]
      rw [segSequenceNumbers_frame_cons, ih _ (seq + 1)]
      simp only [List.length_cons, List.range_succ_eq_map, List.map_cons,
        List.map_map, Function.comp_def, Nat.succ_eq_add_one, hfun]
      norm_num

theorem deltaRunSpec_chain (shift dur : ℚ) (hdur : 0 < dur)
    (ds : List (Bool × Bytes × ℚ)) :
    ∀ (last : ℚ) (seq : Int),
      List.Chain (· < ·) last
        (frameBaseDecodeTimes (deltaRunSpec shift dur last seq ds)) := by
  induction ds with
  | nil => intro last seq; exact List.Chain.nil
  | cons d rest ih =>
      intro last seq
      have hlt : last < repairTs last shift dur d.2.2 := by
        rw [repairTs_eq]
        split_ifs with h
        · linarith
        · linarith [not_le.mp h]
      simp only [deltaRunSpec]
      rw [frameBaseDecodeTimes_frame_cons]
      exact List.Chain.cons hlt (ih _ (seq + 1))

end MoonlightStream

namespace MoonlightStream

/-- The C4 scenario: a key unit carrying SPS/PPS/IDR at timestamp 0, then
deltas at 16667, 16666 and 40000 microseconds. -/
def c4Units : List VideoDecodeUnit :=
  [{ type := UnitType.key, data := threeNalData true true true c1S c1P c1I,
     timestampMicroseconds := 0, durationMicroseconds := 0 },
   simpleDelta true [0x41, 0x9A] 16667, simpleDelta true [0x41, 0x9B] 16666,
   simpleDelta true [0x41, 0x9C] 40000]

def c4Desc : Bytes :=
  [1, 66, 224, 30, 255, 225, 0, 4, 103, 66, 224, 30, 1, 0, 4, 104, 206, 60, 128]

/-- The state and segments the C4 scenario produces at fps = 60. -/
def c4Out : MseState × List MseSegment :=
  ({ errored := false,
     translator := { codec := "avc1.42e01e", description := some c4Desc,
                     hasDescription := true, sps := none, pps := none },
     expectedDurationMicroseconds := mkRat 50000 3,
     videoSize := some (1280, 720), needIdr := false, droppedFrames := 0,
     timestampMicrosecondsShift := 0, lastTimestampMicroseconds := 40000,
     sequenceNumber := 4 },
   [MseSegment.initSeg "avc1.42e01e" c4Desc,
    MseSegment.frameSeg 1 0 (mkRat 50000 3) true [0, 0, 0, 3, 101, 170, 187],
    MseSegment.frameSeg 2 16667 16667 false [0, 0, 0, 2, 65, 154],
    MseSegment.frameSeg 3 (mkRat 100001 3) (mkRat 50000 3) false [0, 0, 0, 2, 65, 155],
    MseSegment.frameSeg 4 40000 (mkRat 19999 3) false [0, 0, 0, 2, 65, 156]])

/-- C4, amended.  At fps = 60 the scenario's emitted base decode times are
0, 16667, 16667 + 50000/3 (stored by `putU64` as 33333) and 40000 — not
40000 + 16666 for the fourth frame: its timestamp 40000 exceeds the
internal (fractional) repaired clock 100001/3, so it is not bumped.  In
general, on the non-reconfiguring path a unit whose shifted timestamp does
not exceed the previous repaired timestamp is bumped to exactly the
previous repaired timestamp plus `expectedDurationMicroseconds`
(`1_000_000 / fps`), which becomes the emitted base decode time and the
frame duration. -/
theorem C4_timestamp_repair :
    (mseRun (mseSetup 60 1280 720) c4Units = some c4Out ∧
     frameBaseDecodeTimes c4Out.2 = [0, 16667, 16667 + 50000 / 3, 40000] ∧
     (frameBaseDecodeTimes c4Out.2).map putU64StoredValue
       = [0, 16667, 33333, 40000]) ∧
    (∀ (st : MseState) (u : VideoDecodeUnit) (tr : H264TState) (chunk : Bytes),
      st.errored = false → st.needIdr = false →
      h264Submit st.translator u
        = (tr, some { configure := none, chunk := some chunk }) →
      u.timestampMicroseconds - st.timestampMicrosecondsShift
        ≤ st.lastTimestampMicroseconds →
      mseSubmitDecodeUnit st u = some
        ({ st with
            translator := tr,
            lastTimestampMicroseconds := st.lastTimestampMicroseconds
              + st.expectedDurationMicroseconds,
            sequenceNumber := st.sequenceNumber + 1 },
         [MseSegment.frameSeg (st.sequenceNumber + 1)
            (st.lastTimestampMicroseconds + st.expectedDurationMicroseconds)
            st.expectedDurationMicroseconds false chunk])) := by
  constructor
  · refine ⟨by decide, ?_, by decide⟩
    have h3 : frameBaseDecodeTimes c4Out.2 = [0, 16667, mkRat 100001 3, 40000] := by
      decide
    rw [h3]
    norm_num [Rat.mkRat_eq_div]
  · intro st u tr chunk herr hneed hsub hle
    rw [mse_delta_step st u tr chunk herr hneed hsub]
    have hr : repairTs st.lastTimestampMicroseconds st.timestampMicrosecondsShift
        st.expectedDurationMicroseconds u.timestampMicroseconds
        = st.lastTimestampMicroseconds + st.expectedDurationMicroseconds := by
      rw [repairTs_eq, if_pos hle]
    rw [hr, jsSub_eq]
    norm_num

/-- The concrete C4 run refutes the claimed decode-time list: the fourth
emitted base decode time is 40000, not 40000 + 16666. -/
theorem C4_timestamp_repair_counterexample :
    mseRun (mseSetup 60 1280 720) c4Units = some c4Out ∧
    (frameBaseDecodeTimes c4Out.2).map putU64StoredValue
      ≠ [0, 16667, 16667 + 16666, 40000 + 16666] ∧
    (frameBaseDecodeTimes c4Out.2).getD 3 0 = 40000 ∧
    (40000 : ℚ) ≠ 40000 + 16666 := by
  refine ⟨by decide, by decide, by decide, by norm_num⟩

def c4WState : MseState :=
  { errored := false,
    translator := { codec := "avc1.42e01e", description := some c4Desc,
                    hasDescription := true, sps := none, pps := none },
    expectedDurationMicroseconds := mkRat 50000 3,
    videoSize := some (1280, 720), needIdr := false, droppedFrames := 0,
    timestampMicrosecondsShift := 0, lastTimestampMicroseconds := 16667,
    sequenceNumber := 2 }

theorem c4_witness_le :
    (simpleDelta true [0x41, 0x9B] 16666).timestampMicroseconds
      - c4WState.timestampMicrosecondsShift
      ≤ c4WState.lastTimestampMicroseconds := by
  show (16666 : ℚ) - 0 ≤ 16667
  norm_num

/-- Witness for C4 at the state reached after the first two units: the
delta at 16666 is bumped to 16667 + 50000/3. -/
theorem C4_timestamp_repair_witness :
    c4WState.errored = false ∧ c4WState.needIdr = false ∧
    h264Submit c4WState.translator (simpleDelta true [0x41, 0x9B] 16666)
      = (c4WState.translator,
         some { configure := none, chunk := some [0, 0, 0, 2, 65, 155] }) ∧
    mseSubmitDecodeUnit c4WState (simpleDelta true [0x41, 0x9B] 16666) = some
      ({ c4WState with
          translator := c4WState.translator,
          lastTimestampMicroseconds := c4WState.lastTimestampMicroseconds
            + c4WState.expectedDurationMicroseconds,
          sequenceNumber := c4WState.sequenceNumber + 1 },
       [MseSegment.frameSeg (c4WState.sequenceNumber + 1)
          (c4WState.lastTimestampMicroseconds
            + c4WState.expectedDurationMicroseconds)
          c4WState.expectedDurationMicroseconds false [0, 0, 0, 2, 65, 155]]) :=
  ⟨rfl, rfl, by decide,
   C4_timestamp_repair.2 c4WState (simpleDelta true [0x41, 0x9B] 16666)
     c4WState.translator [0, 0, 0, 2, 65, 155] rfl rfl (by decide) c4_witness_le⟩

end MoonlightStream

namespace MoonlightStream

/-- C7: a reconfiguring IDR (fresh SPS/PPS) followed by any sequence of
pass-through delta units yields one init segment and then frame segments
whose mfhd sequence numbers are exactly 1, 2, …, N and whose tfdt base
decode times are strictly increasing, starting at 0 for the IDR segment. -/
theorem C7_mp4_sequence
    (fps : ℚ) (hfps : 0 < fps) (w h : Nat) (ts₁ : ℚ)
    (a b c : Bool) (S P I : Bytes)
    (hS4 : 4 ≤ S.length)
    (hS7 : h264NalType (S.getD 0 0) = 7)
    (hP8 : h264NalType (P.getD 0 0) = 8)
    (hI5 : h264NalType (I.getD 0 0) = 5)
    (hnoS : ∀ q < (scBytes a).length + S.length, (scBytes a).length ≤ q →
        scAt (threeNalData a b c S P I) q = false)
    (hnoP : ∀ q < (scBytes a).length + S.length + (scBytes b).length + P.length,
        (scBytes a).length + S.length + (scBytes b).length ≤ q →
        scAt (threeNalData a b c S P I) q = false)
    (hnoI : ∀ q < (threeNalData a b c S P I).length,
        (scBytes a).length + S.length + (scBytes b).length + P.length +
          (scBytes c).length ≤ q →
        scAt (threeNalData a b c S P I) q = false)
    (ds : List (Bool × Bytes × ℚ))
    (hds : ∀ d ∈ ds, goodDelta d.1 d.2.1) :
    ∃ ps st' frames,
      h264ParseSps S = some ps ∧
      mseRun (mseSetup fps w h)
        ({ type := UnitType.key, data := threeNalData a b c S P I,
           timestampMicroseconds := ts₁, durationMicroseconds := 0 }
          :: ds.map fun d => simpleDelta d.1 d.2.1 d.2.2)
        = some (st', MseSegment.initSeg ps.avc1 (h264MakeAvcC S P) :: frames) ∧
      frames.head? = some (MseSegment.frameSeg 1 0
        (jsSub (repairTs 0 0 (jsDiv 1000000 fps) ts₁) 0) true
        (be32 I.length ++ I)) ∧
      segSequenceNumbers frames
        = (List.range (ds.length + 1)).map (fun i : Nat => (i : Int) + 1) ∧
      List.Chain' (· < ·) (frameBaseDecodeTimes frames) ∧
      (frameBaseDecodeTimes frames).head? = some 0 := by
  obtain ⟨ps, hps, -, -, -, -⟩ := h264ParseSps_of_length S hS4 hS7
  have hIne : h264NalType ((be32 I.length ++ I).getD 4 0) = 5 := hI5
  have hexp : (0 : ℚ) < jsDiv 1000000 fps := by
    rw [jsDiv_eq _ _ (ne_of_gt hfps)]
    positivity
  have hsubmit := h264_submit_threeNal a b c S P I (mseSetup fps w h).translator
    ps { type := UnitType.key, data := threeNalData a b c S P I,
         timestampMicroseconds := ts₁, durationMicroseconds := 0 }
    rfl rfl hS7 hP8 (by rw [hI5]; omega) (by rw [hI5]; omega) hps hnoS hnoP hnoI
  have hrun : mseRun (mseSetup fps w h)
      ({ type := UnitType.key, data := threeNalData a b c S P I,
         timestampMicroseconds := ts₁, durationMicroseconds := 0 }
        :: ds.map fun d => simpleDelta d.1 d.2.1 d.2.2)
      = some ({ errored := false,
                translator := { codec := ps.avc1,
                                description := some (h264MakeAvcC S P),
                                hasDescription := true, sps := none,
                                pps := none },
                expectedDurationMicroseconds := jsDiv 1000000 fps,
                videoSize := some (w, h), needIdr := false,
                droppedFrames := 0,
                timestampMicrosecondsShift := ts₁,
                lastTimestampMicroseconds :=
                  deltaRunLast ts₁ (jsDiv 1000000 fps) 0 ds,
                sequenceNumber := 1 + ds.length },
          MseSegment.initSeg ps.avc1 (h264MakeAvcC S P)
          :: MseSegment.frameSeg 1 0
               (jsSub (repairTs 0 0 (jsDiv 1000000 fps) ts₁) 0) true
               (be32 I.length ++ I)
          :: deltaRunSpec ts₁ (jsDiv 1000000 fps) 0 1 ds) := by
    simp only [mseRun]
    rw [mse_configure_step (mseSetup fps w h)
      { type := UnitType.key, data := threeNalData a b c S P I,
        timestampMicroseconds := ts₁, durationMicroseconds := 0 }
      { codec := ps.avc1, description := some (h264MakeAvcC S P),
        hasDescription := true, sps := none, pps := none }
      { codec := ps.avc1, description := some (h264MakeAvcC S P) }
      (h264MakeAvcC S P) (be32 I.length ++ I) (w, h) rfl hsubmit rfl rfl hIne]
    dsimp only
    rw [mseRun_deltas ds _ rfl rfl rfl rfl hds]
    rfl
  refine ⟨ps, _, MseSegment.frameSeg 1 0
      (jsSub (repairTs 0 0 (jsDiv 1000000 fps) ts₁) 0) true (be32 I.length ++ I)
      :: deltaRunSpec ts₁ (jsDiv 1000000 fps) 0 1 ds,
    hps, hrun, rfl, ?_, ?_, rfl⟩
  · rw [segSequenceNumbers_frame_cons, deltaRunSpec_seqs]
    have hfun : (fun i : ℕ => ((i + 1 : ℕ) : Int) + 1)
        = fun i : ℕ => (1 : Int) + 1 + (i : Int) := by
      funext i
      push_cast
      ring
    rw [List.range_succ_eq_map]
    simp only [List.map_cons, List.map_map, Function.comp_def,
      Nat.succ_eq_add_one, hfun]
    norm_num
  · rw [frameBaseDecodeTimes_frame_cons]
    exact deltaRunSpec_chain ts₁ (jsDiv 1000000 fps) hexp ds 0 1

def c7Ds : List (Bool × Bytes × ℚ) :=
  [(true, [0x41, 0x9A], 16667), (false, [0x41, 0x9B], 16666)]

theorem c7_fps_pos : (0 : ℚ) < 60 := by norm_num

/-- Witness for C7: the three-NAL key unit of C1 followed by two delta
units (N = 3). -/
theorem C7_mp4_sequence_witness :
    ∃ ps st' frames,
      h264ParseSps c1S = some ps ∧
      mseRun (mseSetup 60 1280 720)
        ({ type := UnitType.key, data := threeNalData true false true c1S c1P c1I,
           timestampMicroseconds := 0, durationMicroseconds := 0 }
          :: c7Ds.map fun d => simpleDelta d.1 d.2.1 d.2.2)
        = some (st', MseSegment.initSeg ps.avc1 (h264MakeAvcC c1S c1P) :: frames) ∧
      frames.head? = some (MseSegment.frameSeg 1 0
        (jsSub (repairTs 0 0 (jsDiv 1000000 60) 0) 0) true
        (be32 c1I.length ++ c1I)) ∧
      segSequenceNumbers frames
        = (List.range (c7Ds.length + 1)).map (fun i : Nat => (i : Int) + 1) ∧
      List.Chain' (· < ·) (frameBaseDecodeTimes frames) ∧
      (frameBaseDecodeTimes frames).head? = some 0 :=
  C7_mp4_sequence 60 c7_fps_pos 1280 720 0 true false true c1S c1P c1I
    (by decide) (by decide) (by decide) (by decide)
    (by decide) (by decide) (by decide) c7Ds (by decide)

end MoonlightStream

namespace MoonlightStream

/-! ### `VideoDecoderPipe` (video_decoder_pipe.ts)

The WebCodecs pipe.  The H.264 translator object is the embedded
`H264TState`; the `VideoDecoder` itself is environmental, so the model
tracks the calls made to it: `decoderResets` / `decoderConfigures` count
`decoder.reset()` / `decoder.configure(...)` calls, `decoded` collects the
submitted chunk payloads, and `decodeQueueSize` mirrors the decoder's
queue (incremented by `decode`, zeroed by `reset`).  The base pipe's
`pollRequestIdr` answer is the environmental input `basePoll`. -/

structure VdpState where
  errored : Bool
  decoderSetupFinished : Bool
  requestedIdr : Bool
  needsKeyFrame : Bool
  hasTranslator : Bool
  translator : H264TState
  config : Option VideoDecoderConfig
  fps : ℚ
  decodeQueueSize : ℚ
  decoderResets : Nat
  decoderConfigures : Nat
  decoded : List Bytes
  bufferedUnits : List VideoDecodeUnit

/-- `VideoDecoderPipe.reset` (the private method). -/
def vdpReset (st : VdpState) : VdpState :=
  if st.hasTranslator = false then
    let st₁ : VdpState := { st with
      decoderResets := st.decoderResets + 1,
      decodeQueueSize := 0,
      needsKeyFrame := true }
    match st₁.config with
    | some _ => { st₁ with decoderConfigures := st₁.decoderConfigures + 1 }
    | none => st₁
  else
    match st.config with
    | some cfg => { st with translator := h264Ops.setBaseConfig st.translator cfg }
    | none => st

/-- One unit through `VideoDecoderPipe.submitDecodeUnit` past the buffering
stage (the state of a recursive replay call: setup finished and the buffer
already spliced empty).  `none` when the source would propagate an
exception. -/
def vdpSubmitOne (st : VdpState) (unit : VideoDecodeUnit) : Option VdpState :=
  if st.errored then some st
  else if st.hasTranslator then
    match h264Submit st.translator unit with
    | (_, none) => none
    | (tr, some value) =>
      let st₁ : VdpState := { st with translator := tr }
      match value.chunk with
      | none => some st₁
      | some chunk =>
        let st₂ : VdpState := match value.configure with
          | some _ => { st₁ with
              decodeQueueSize := 0,
              decoderResets := st₁.decoderResets + 1,
              decoderConfigures := st₁.decoderConfigures + 1,
              requestedIdr := false }
          | none => st₁
        some { st₂ with
          decoded := st₂.decoded ++ [chunk],
          decodeQueueSize := jsAdd st₂.decodeQueueSize 1 }
  else
    if unit.type ≠ UnitType.key ∧ st.needsKeyFrame = true then some st
    else some { st with
      needsKeyFrame := false,
      requestedIdr := false,
      decoded := st.decoded ++ [unit.data],
      decodeQueueSize := jsAdd st.decodeQueueSize 1 }

/-- `VideoDecoderPipe.submitDecodeUnit`. -/
def vdpSubmitDecodeUnit (st : VdpState) (unit : VideoDecodeUnit) :
    Option VdpState :=
  if st.errored then some st
  else if st.decoderSetupFinished = false then
    some { st with bufferedUnits := st.bufferedUnits ++ [unit] }
  else
    match st.bufferedUnits.foldlM vdpSubmitOne
        { st with bufferedUnits := [] } with
    | none => none
    | some st₁ => vdpSubmitOne st₁ unit

/-- `VideoDecoderPipe.pollRequestIdr`. -/
def vdpPollRequestIdr (st : VdpState) (basePoll : Bool) : VdpState × Bool :=
  let estimatedQueueDelayMs := jsDiv (jsMul st.decodeQueueSize 1000) st.fps
  let out :=
    if jsLt 200 estimatedQueueDelayMs && jsLt 2 st.decodeQueueSize then
      if st.requestedIdr = false then (vdpReset st, true) else (st, false)
    else (st, false)
  let requestIdr := out.2 || basePoll
  (if requestIdr then { out.1 with requestedIdr := true } else out.1, requestIdr)

/-- C8: at fps = 60 a queue of 20 pending units (estimated delay 1000/3 ms)
with the latch clear makes `pollRequestIdr` return true, run `reset()`
(which on the translator-free pipe resets the `VideoDecoder`) and latch
`requestedIdr`; while the latch is set the poll performs no reset of its
own and returns exactly the base pipe's answer; the latch is cleared by a
translator reconfigure, or on the translator-free path by the first unit
that is actually submitted to the decoder. -/
theorem C8_idr_hysteresis :
    (∀ (st : VdpState) (basePoll : Bool),
      st.fps = 60 → st.decodeQueueSize = 20 → st.requestedIdr = false →
      vdpPollRequestIdr st basePoll
        = ({ vdpReset st with requestedIdr := true }, true) ∧
      (st.hasTranslator = false →
        (vdpReset st).decoderResets = st.decoderResets + 1)) ∧
    (∀ (st : VdpState) (basePoll : Bool), st.requestedIdr = true →
      vdpPollRequestIdr st basePoll = (st, basePoll)) ∧
    (∀ (st : VdpState) (u : VideoDecodeUnit) (tr : H264TState)
        (cfg : VideoDecoderConfig) (chunk : Bytes),
      st.errored = false → st.decoderSetupFinished = true →
      st.bufferedUnits = [] → st.hasTranslator = true →
      h264Submit st.translator u
        = (tr, some { configure := some cfg, chunk := some chunk }) →
      ∃ st', vdpSubmitDecodeUnit st u = some st' ∧ st'.requestedIdr = false) ∧
    (∀ (st : VdpState) (u : VideoDecodeUnit),
      st.errored = false → st.decoderSetupFinished = true →
      st.bufferedUnits = [] → st.hasTranslator = false →
      (u.type = UnitType.key ∨ st.needsKeyFrame = false) →
      ∃ st', vdpSubmitDecodeUnit st u = some st' ∧ st'.requestedIdr = false) := by
  refine ⟨?_, ?_, ?_, ?_⟩
  · intro st basePoll hfps hq hreq
    constructor
    · unfold vdpPollRequestIdr
      dsimp only
      rw [hfps, hq, hreq]
      rw [show (jsLt 200 (jsDiv (jsMul (20 : ℚ) 1000) 60)
          && jsLt 2 (20 : ℚ)) = true from by decide]
      simp
    · intro htr
      unfold vdpReset
      rw [htr]
      dsimp only
      cases st.config <;> rfl
  · intro st basePoll hreq
    have hid : { st with requestedIdr := true } = st := by
      cases st
      cases hreq
      rfl
    unfold vdpPollRequestIdr
    dsimp only
    rw [hreq, if_neg (show ¬((true : Bool) = false) from by simp), ite_self]
    dsimp only
    simp only [Bool.false_or]
    cases basePoll
    · rfl
    · rw [hid, ite_self]
  · intro st u tr cfg chunk herr hsetup hbuf htr hsub
    unfold vdpSubmitDecodeUnit
    rw [herr, hsetup, hbuf]
    rw [if_neg (show ¬((false : Bool) = true) from by simp),
      if_neg (show ¬((true : Bool) = false) from by simp)]
    simp only [List.foldlM_nil]
    unfold vdpSubmitOne
    dsimp only
    rw [htr, if_neg (show ¬((false : Bool) = true) from by simp), if_pos rfl,
      hsub]
    exact ⟨_, rfl, rfl⟩
  · intro st u herr hsetup hbuf htr hkey
    unfold vdpSubmitDecodeUnit
    rw [herr, hsetup, hbuf]
    rw [if_neg (show ¬((false : Bool) = true) from by simp),
      if_neg (show ¬((true : Bool) = false) from by simp)]
    simp only [List.foldlM_nil]
    unfold vdpSubmitOne
    dsimp only
    rw [htr, if_neg (show ¬((false : Bool) = true) from by simp),
      if_neg (show ¬((false : Bool) = true) from by simp)]
    rw [if_neg]
    · exact ⟨_, rfl, rfl⟩
    · rcases hkey with hk | hn
      · intro hc
        exact hc.1 hk
      · intro hc
        rw [hn] at hc
        exact absurd hc.2 (by simp)

def c8Poll : VdpState :=
  { errored := false, decoderSetupFinished := true, requestedIdr := false,
    needsKeyFrame := false, hasTranslator := false, translator := h264Init,
    config := some { codec := "avc1.42e01e", description := none },
    fps := 60, decodeQueueSize := 20, decoderResets := 0,
    decoderConfigures := 0, decoded := [], bufferedUnits := [] }

def c8Latched : VdpState := { c8Poll with requestedIdr := true }

def c8Tr : VdpState :=
  { c8Poll with hasTranslator := true, decodeQueueSize := 0 }

def c8TrOut : H264TState :=
  { codec := "avc1.42e01e", description := some (h264MakeAvcC c1S c1P),
    hasDescription := true, sps := none, pps := none }

/-- Witness for C8: the trigger at queue 20 / fps 60, the latched no-op
poll for both base answers, the translator reconfigure clearing the latch,
and the translator-free first submitted unit clearing the latch. -/
theorem C8_idr_hysteresis_witness :
    vdpPollRequestIdr c8Poll false
      = ({ vdpReset c8Poll with requestedIdr := true }, true) ∧
    (vdpReset c8Poll).decoderResets = c8Poll.decoderResets + 1 ∧
    vdpPollRequestIdr c8Latched false = (c8Latched, false) ∧
    vdpPollRequestIdr c8Latched true = (c8Latched, true) ∧
    (∃ st', vdpSubmitDecodeUnit c8Tr c1Unit = some st' ∧
      st'.requestedIdr = false) ∧
    (∃ st', vdpSubmitDecodeUnit c8Poll c1Unit = some st' ∧
      st'.requestedIdr = false) :=
  ⟨(C8_idr_hysteresis.1 c8Poll false rfl rfl rfl).1,
   (C8_idr_hysteresis.1 c8Poll false rfl rfl rfl).2 rfl,
   C8_idr_hysteresis.2.1 c8Latched false rfl,
   C8_idr_hysteresis.2.1 c8Latched true rfl,
   C8_idr_hysteresis.2.2.1 c8Tr c1Unit c8TrOut
     { codec := "avc1.42e01e", description := some (h264MakeAvcC c1S c1P) }
     (be32 c1I.length ++ c1I) rfl rfl rfl rfl (by decide),
   C8_idr_hysteresis.2.2.2 c8Poll c1Unit rfl rfl rfl rfl (Or.inl rfl)⟩

end MoonlightStream

namespace MoonlightStream

/-! ### `buildVideoPipeline` (tinyh264_decoder_pipe.ts)

The preference table `PIPELINES` stores each chain's renderer as the class
constructor itself.  `FORCE_CANVAS_PIPELINES` filters it with
`pipeline.renderer instanceof BaseCanvasVideoRenderer`.  JavaScript
`x instanceof C` walks `x`'s own prototype chain looking for the object
`C.prototype`.  The relevant object graph: a class constructor's
`[[Prototype]]` is its parent constructor (`Function.prototype` for a base
class), while `C.prototype` objects form a parallel chain.  The renderer
class hierarchy is `MainCanvasRenderer`/`OffscreenCanvasRenderer` extends
`BaseCanvasVideoRenderer` (`OffscreenCanvasRenderer extends
BaseCanvasVideoRenderer` is in the source; `canvas.ts` itself is not in
the corpus, so `MainCanvasRenderer`'s link is modelled from the spec's
renderer taxonomy) and `VideoElementRenderer` extends nothing. -/

inductive JsObj where
  | ctorVideoElementRenderer
  | ctorMainCanvasRenderer
  | ctorOffscreenCanvasRenderer
  | ctorBaseCanvasVideoRenderer
  | protoVideoElementRenderer
  | protoMainCanvasRenderer
  | protoOffscreenCanvasRenderer
  | protoBaseCanvasVideoRenderer
  | functionProto
  | objectProto
  deriving DecidableEq, Repr

/-- The `[[Prototype]]` link of each object. -/
def jsProtoOf : JsObj → Option JsObj
  | .ctorVideoElementRenderer => some .functionProto
  | .ctorMainCanvasRenderer => some .ctorBaseCanvasVideoRenderer
  | .ctorOffscreenCanvasRenderer => some .ctorBaseCanvasVideoRenderer
  | .ctorBaseCanvasVideoRenderer => some .functionProto
  | .protoVideoElementRenderer => some .objectProto
  | .protoMainCanvasRenderer => some .protoBaseCanvasVideoRenderer
  | .protoOffscreenCanvasRenderer => some .protoBaseCanvasVideoRenderer
  | .protoBaseCanvasVideoRenderer => some .objectProto
  | .functionProto => some .objectProto
  | .objectProto => none

/-- The `prototype` property (only constructors have one here). -/
def jsPrototypeProp : JsObj → Option JsObj
  | .ctorVideoElementRenderer => some .protoVideoElementRenderer
  | .ctorMainCanvasRenderer => some .protoMainCanvasRenderer
  | .ctorOffscreenCanvasRenderer => some .protoOffscreenCanvasRenderer
  | .ctorBaseCanvasVideoRenderer => some .protoBaseCanvasVideoRenderer
  | _ => none

/-- The prototype chain above an object (all chains here have length < 8). -/
def protoChain : Nat → JsObj → List JsObj
  | 0, _ => []
  | fuel + 1, o =>
    match jsProtoOf o with
    | none => []
    | some p => p :: protoChain fuel p

/-- JavaScript `x instanceof C` (OrdinaryHasInstance): is `C.prototype` in
`x`'s prototype chain? -/
def jsInstanceOf (x c : JsObj) : Bool :=
  match jsPrototypeProp c with
  | none => false
  | some p => (protoChain 8 x).contains p

/-- Modelled from the spec: the codec-support mask of `video.ts` (absent
from the corpus); only its Boolean-mask shape matters here. -/
structure CodecMask where
  h264 : Bool
  h265 : Bool
  av1 : Bool
  deriving DecidableEq, Repr

/-- Modelled from the spec: pointwise intersection (`andVideoCodecs`). -/
def andVideoCodecs (a b : CodecMask) : CodecMask :=
  { h264 := a.h264 && b.h264, h265 := a.h265 && b.h265, av1 := a.av1 && b.av1 }

/-- Modelled from the spec: `hasAnyCodec`. -/
def hasAnyCodec (a : CodecMask) : Bool := a.h264 || a.h265 || a.av1

structure Pipeline where
  input : String
  pipes : List String
  renderer : JsObj
  deriving DecidableEq, Repr

/-- The fixed preference table (pipes identified by their class names). -/
def PIPELINES : List Pipeline :=
  [{ input := "videotrack", pipes := [],
     renderer := .ctorVideoElementRenderer },
   { input := "videotrack",
     pipes := ["VideoMediaStreamTrackProcessorPipe", "CanvasFrameDrawPipe"],
     renderer := .ctorMainCanvasRenderer },
   { input := "videotrack",
     pipes := ["WorkerVideoTrackSendPipe", "WorkerVideoMediaStreamProcessorCanvasPipe"],
     renderer := .ctorOffscreenCanvasRenderer },
   { input := "videotrack",
     pipes := ["WorkerVideoTrackSendPipe", "WorkerVideoMediaStreamProcessorPipe",
               "WorkerVideoFrameReceivePipe"],
     renderer := .ctorMainCanvasRenderer },
   { input := "data",
     pipes := ["DepacketizeVideoPipe", "WorkerVideoDataSendPipe",
               "WorkerDataToVideoTrackPipe", "WorkerVideoTrackReceivePipe"],
     renderer := .ctorVideoElementRenderer },
   { input := "data",
     pipes := ["DepacketizeVideoPipe", "VideoDecoderPipe",
               "VideoMediaStreamTrackGeneratorPipe"],
     renderer := .ctorVideoElementRenderer },
   { input := "data",
     pipes := ["DepacketizeVideoPipe", "VideoDecoderPipe", "CanvasFrameDrawPipe"],
     renderer := .ctorMainCanvasRenderer },
   { input := "data",
     pipes := ["DepacketizeVideoPipe", "WorkerVideoDataSendPipe",
               "WorkerDataToCanvasRenderOpenH264Pipe"],
     renderer := .ctorOffscreenCanvasRenderer },
   { input := "data",
     pipes := ["DepacketizeVideoPipe", "OpenH264DecoderPipe",
               "Yuv420ToRgbaFramePipe", "CanvasRgbaFrameDrawPipe"],
     renderer := .ctorMainCanvasRenderer }]

def FORCE_CANVAS_PIPELINES : List Pipeline :=
  PIPELINES.filter fun pipeline =>
    jsInstanceOf pipeline.renderer JsObj.ctorBaseCanvasVideoRenderer

/-- Modelled from the spec: "forced-renderer flags prune the table to
chains ending in the named renderer" — a renderer class counts as a canvas
renderer when its instances would satisfy
`instanceof BaseCanvasVideoRenderer`, i.e. when its `prototype` object's
chain (itself included) passes through `BaseCanvasVideoRenderer.prototype`. -/
def rendererIsCanvas (r : JsObj) : Bool :=
  match jsPrototypeProp r with
  | none => false
  | some p => p == JsObj.protoBaseCanvasVideoRenderer
      || (protoChain 8 p).contains JsObj.protoBaseCanvasVideoRenderer

/-- The pruning the spec describes. -/
def SPEC_CANVAS_PIPELINES : List Pipeline :=
  PIPELINES.filter fun pipeline => rendererIsCanvas pipeline.renderer

structure PipeInfoM where
  environmentSupported : Bool
  supportedVideoCodecs : Option CodecMask

/-- The environment `buildVideoPipeline` consults: `gatherPipeInfo`'s map,
each renderer's `getInfo`, and whether `buildPipeline` succeeds. -/
structure BuildEnv where
  pipeInfo : String → Option PipeInfoM
  rendererInfo : JsObj → Option PipeInfoM
  buildOk : Pipeline → Bool

structure VideoPipelineOptions where
  supportedVideoCodecs : CodecMask
  canvasRenderer : Bool
  forceVideoElementRenderer : Bool
  canvasVsync : Bool

inductive PipelineResult where
  | error
  | forcedVideoElement (codecs : CodecMask)
  | built (p : Pipeline) (codecs : CodecMask)
  deriving DecidableEq, Repr

/-- One iteration of `pipelineLoop`: `none` means `continue pipelineLoop`,
`some m` means the chain is selected with effective codec mask `m`. -/
def pipelineAttempt (env : BuildEnv) (initial : CodecMask) (ty : String)
    (p : Pipeline) : Option CodecMask :=
  if p.input ≠ ty then none
  else
    match p.pipes.foldlM (fun m pipe =>
        match env.pipeInfo pipe with
        | none => none
        | some info =>
          if info.environmentSupported = false then none
          else some (match info.supportedVideoCodecs with
            | some c => andVideoCodecs m c
            | none => m)) initial with
    | none => none
    | some m =>
      match env.rendererInfo p.renderer with
      | none => none
      | some rinfo =>
        if rinfo.environmentSupported = false then none
        else
          let m₁ := match rinfo.supportedVideoCodecs with
            | some c => andVideoCodecs m c
            | none => m
          if hasAnyCodec m₁ = false then none
          else if env.buildOk p then some m₁ else none

def selectFirst (env : BuildEnv) (settings : VideoPipelineOptions)
    (ty : String) : List Pipeline → PipelineResult
  | [] => .error
  | p :: rest =>
    match pipelineAttempt env settings.supportedVideoCodecs ty p with
    | some m => .built p m
    | none => selectFirst env settings ty rest

/-- `buildVideoPipeline`. -/
def buildVideoPipeline (env : BuildEnv) (ty : String)
    (settings : VideoPipelineOptions) : PipelineResult :=
  if settings.forceVideoElementRenderer then
    if ty ≠ "videotrack" then .error
    else .forcedVideoElement
      (if hasAnyCodec settings.supportedVideoCodecs = false
        then { settings.supportedVideoCodecs with h264 := true }
        else settings.supportedVideoCodecs)
  else
    selectFirst env settings ty
      (if settings.canvasRenderer then FORCE_CANVAS_PIPELINES else PIPELINES)

/-- An environment in which every pipe and renderer is supported and every
chain builds. -/
def infoSupported : PipeInfoM :=
  { environmentSupported := true, supportedVideoCodecs := none }

def envAll : BuildEnv :=
  { pipeInfo := fun _ => some infoSupported,
    rendererInfo := fun _ => some infoSupported,
    buildOk := fun _ => true }

def c5Settings : VideoPipelineOptions :=
  { supportedVideoCodecs := { h264 := true, h265 := false, av1 := false },
    canvasRenderer := true, forceVideoElementRenderer := false,
    canvasVsync := false }

/-- C5 fails in the code: `renderer instanceof BaseCanvasVideoRenderer` is
asked of the class constructors themselves, whose prototype chains hold
the parent constructor, never `BaseCanvasVideoRenderer.prototype` — so the
filter drops every row, the canvas-forced builder iterates an empty table
and errors in every environment, while the pruning the spec describes
keeps the five canvas rows in table order and succeeds in a supporting
environment. -/
theorem C5_canvas_pruning :
    FORCE_CANVAS_PIPELINES = [] ∧
    (∀ p ∈ PIPELINES,
      jsInstanceOf p.renderer JsObj.ctorBaseCanvasVideoRenderer = false) ∧
    (∀ (env : BuildEnv) (ty : String) (settings : VideoPipelineOptions),
      settings.forceVideoElementRenderer = false →
      settings.canvasRenderer = true →
      buildVideoPipeline env ty settings = PipelineResult.error) ∧
    SPEC_CANVAS_PIPELINES = PIPELINES.filter
      (fun p => rendererIsCanvas p.renderer) ∧
    SPEC_CANVAS_PIPELINES.map (fun p => p.renderer)
      = [.ctorMainCanvasRenderer, .ctorOffscreenCanvasRenderer,
         .ctorMainCanvasRenderer, .ctorMainCanvasRenderer,
         .ctorOffscreenCanvasRenderer, .ctorMainCanvasRenderer] ∧
    selectFirst envAll c5Settings "videotrack" SPEC_CANVAS_PIPELINES
      = PipelineResult.built
          { input := "videotrack",
            pipes := ["VideoMediaStreamTrackProcessorPipe", "CanvasFrameDrawPipe"],
            renderer := .ctorMainCanvasRenderer }
          { h264 := true, h265 := false, av1 := false } := by
  refine ⟨by decide, by decide, ?_, rfl, by decide, by decide⟩
  intro env ty settings hf hc
  unfold buildVideoPipeline
  rw [hf, hc]
  rw [if_neg (show ¬((false : Bool) = true) from by simp), if_pos rfl]
  rw [show FORCE_CANVAS_PIPELINES = [] from by decide]
  rfl

def c5EnvNone : BuildEnv :=
  { pipeInfo := fun _ => none, rendererInfo := fun _ => none,
    buildOk := fun _ => false }

/-- Witness for C5: in the all-supporting environment the canvas-forced
builder still errors, although the spec's pruning selects the track→canvas
chain there. -/
theorem C5_canvas_pruning_witness :
    c5Settings.forceVideoElementRenderer = false ∧
    c5Settings.canvasRenderer = true ∧
    buildVideoPipeline envAll "videotrack" c5Settings = PipelineResult.error ∧
    buildVideoPipeline envAll "data" c5Settings = PipelineResult.error ∧
    selectFirst envAll c5Settings "videotrack" SPEC_CANVAS_PIPELINES
      = PipelineResult.built
          { input := "videotrack",
            pipes := ["VideoMediaStreamTrackProcessorPipe", "CanvasFrameDrawPipe"],
            renderer := .ctorMainCanvasRenderer }
          { h264 := true, h265 := false, av1 := false } :=
  ⟨rfl, rfl,
   C5_canvas_pruning.2.2.1 envAll "videotrack" c5Settings rfl rfl,
   C5_canvas_pruning.2.2.1 envAll "data" c5Settings rfl rfl,
   C5_canvas_pruning.2.2.2.2.2⟩

end MoonlightStream
